import Mathlib

/-!
Verification development for the WarMasterMind rules engine.

This file gives a shallow embedding of the zoned turn engine
(src/utility/game_manager.py, class GameManager and AbilityProcessor) and of
the match-session layer (src/server/game_server.py, class GameSession), and
proves properties of the capture system, the movement and draw limits, the
combat-with-assignments protocol, the win condition and the fog-of-war
state projection.

Python dictionaries that may lack keys are modelled as records whose fields
carry the default value the code supplies via dict.get; print statements and
the textual effect logs are dropped, state mutations are kept.  Card indices
arriving from the wire are taken as natural numbers.
-/

namespace CardGame

/-- The two sides, mirroring the Player enum. -/
inductive Player where
  | attacker
  | defender
deriving DecidableEq, Repr

/-- The opposite side. -/
def Player.other : Player → Player
  | .attacker => .defender
  | .defender => .attacker

/-- The three tactical zones of a location. -/
inductive Zone where
  | attackerZone
  | middleZone
  | defenderZone
deriving DecidableEq, Repr

/-- The seven named locations of the fixed battlefield graph. -/
inductive Location where
  | keep
  | gate
  | courtyard
  | forest
  | walls
  | sewers
  | camp
deriving DecidableEq, Repr

/-- Static card definition: the fields of a CARDS_DATA row
[Type, Subtype, Species, Attack, Health, Cost, Name, Skills]. -/
structure CardInfo where
  ctype : String
  subtype : String
  species : String
  attack : Int
  health : Int
  cost : Int
  name : String
  special : String
deriving DecidableEq, Repr

/-- A card instance on the battlefield: the mutable dict created by
place_card_on_battlefield, with dict.get defaults materialised as fields. -/
structure CardInst where
  cardId : String
  info : CardInfo
  isTapped : Bool
  currentHealth : Int
  turnPlaced : Nat
  hasMovedThisTurn : Bool
  attackModifier : Int
  healthModifier : Int
  hasCharged : Bool
deriving DecidableEq, Repr

/-- Both sides of one zone of a location. -/
structure ZoneCards where
  attacker : List CardInst
  defender : List CardInst
deriving DecidableEq, Repr

/-- Cards of one side in a zone. -/
def ZoneCards.side (z : ZoneCards) : Player → List CardInst
  | .attacker => z.attacker
  | .defender => z.defender

/-- Replace the cards of one side in a zone. -/
def ZoneCards.setSide (z : ZoneCards) : Player → List CardInst → ZoneCards
  | .attacker, cs => { z with attacker := cs }
  | .defender, cs => { z with defender := cs }

/-- One location: three zones plus the middle-zone first-placer claim. -/
structure LocData where
  attackerZone : ZoneCards
  middleZone : ZoneCards
  defenderZone : ZoneCards
  firstPlacer : Option Player
deriving DecidableEq, Repr

/-- Zone lookup in a location. -/
def LocData.zone (ld : LocData) : Zone → ZoneCards
  | .attackerZone => ld.attackerZone
  | .middleZone => ld.middleZone
  | .defenderZone => ld.defenderZone

/-- Replace a zone of a location. -/
def LocData.setZone (ld : LocData) : Zone → ZoneCards → LocData
  | .attackerZone, z => { ld with attackerZone := z }
  | .middleZone, z => { ld with middleZone := z }
  | .defenderZone, z => { ld with defenderZone := z }

/-- An entry of the hand reinforcement queue. -/
structure QueueEntry where
  cardId : String
  info : CardInfo
  turnsRemaining : Int
  player : Player
deriving DecidableEq, Repr

/-- A card held in hand. -/
structure HandCard where
  cardId : String
  info : CardInfo
deriving DecidableEq, Repr

/-- Accumulated capture power of both sides at one location. -/
structure CapPower where
  attacker : Int
  defender : Int
deriving DecidableEq, Repr

/-- The full GameManager state (src/utility/game_manager.py). -/
structure GMState where
  currentTurn : Nat
  currentPlayer : Player
  attackerHasPassed : Bool
  defenderHasPassed : Bool
  attackerHasDrawn : Bool
  defenderHasDrawn : Bool
  attackerHasMoved : Bool
  defenderHasMoved : Bool
  queue : List QueueEntry
  battlefield : Location → LocData
  hands : Player → List HandCard
  decks : Player → List String
  locationControl : Location → Option Player
  capturePower : Location → CapPower
  attackerBonusDraws : Nat
  defenderBonusDraws : Nat

/-- GameManager.LOCATIONS. -/
def LOCATIONS : List Location :=
  [.keep, .gate, .courtyard, .forest, .walls, .sewers, .camp]

/-- GameManager.CAPTURABLE_LOCATIONS. -/
def CAPTURABLE_LOCATIONS : List Location := [.gate, .walls, .sewers]

/-- GameManager.CAPTURE_THRESHOLD. -/
def CAPTURE_THRESHOLD : Int := 5

/-- The zone iteration order used throughout the python code. -/
def ZONES : List Zone := [.attackerZone, .middleZone, .defenderZone]

/-- GameManager.ATTACKER_BLOCKED. -/
def ATTACKER_BLOCKED : List Location := [.keep, .courtyard]

/-- GameManager.DEFENDER_BLOCKED. -/
def DEFENDER_BLOCKED : List Location := [.forest, .camp]

/-- GameManager.ADJACENCY. -/
def adjacency : Location → List Location
  | .camp => [.forest, .gate, .walls]
  | .forest => [.camp, .walls, .sewers]
  | .gate => [.camp, .courtyard]
  | .walls => [.camp, .forest, .courtyard, .keep]
  | .sewers => [.forest, .keep]
  | .courtyard => [.gate, .walls, .keep]
  | .keep => [.courtyard, .sewers, .walls]

/-- Pointwise update of a location-indexed table. -/
def updLoc {α : Type} (f : Location → α) (l : Location) (v : α) : Location → α :=
  fun x => if x = l then v else f x

/-- Pointwise update of a player-indexed table. -/
def updPlayer {α : Type} (f : Player → α) (p : Player) (v : α) : Player → α :=
  fun x => if x = p then v else f x

/-- Update one zone list of one side at one location of the battlefield. -/
def setCards (bf : Location → LocData) (l : Location) (z : Zone) (p : Player)
    (cs : List CardInst) : Location → LocData :=
  updLoc bf l (((bf l).setZone z (((bf l).zone z).setSide p cs)))

/-- Sum of the base attack values (card_info[IDX_ATTACK]) of a card list. -/
def sumAttack (cs : List CardInst) : Int :=
  cs.foldl (fun a c => a + c.info.attack) 0

/-- Sum of the current health of a card list (card.get with the base health
as default; instances always carry the field). -/
def sumHealth (cs : List CardInst) : Int :=
  cs.foldl (fun a c => a + c.currentHealth) 0

/-- are_adjacent. -/
def areAdjacent (l1 l2 : Location) : Bool := (adjacency l1).contains l2

/-- can_place_at_location: not in the blocked list, or the side controls an
adjacent capturable location. -/
def canPlaceAtLocation (s : GMState) (l : Location) (p : Player) : Bool :=
  let blockedList := match p with
    | .attacker => ATTACKER_BLOCKED
    | .defender => DEFENDER_BLOCKED
  if ¬ blockedList.contains l then true
  else (adjacency l).any fun adj =>
    CAPTURABLE_LOCATIONS.contains adj && s.locationControl adj == some p

/-- Split a character list at commas (the python str.split on a comma). -/
def splitOnCommaAux : List Char → List Char → List String
  | [], acc => [String.mk acc.reverse]
  | c :: rest, acc =>
    if c = ',' then String.mk acc.reverse :: splitOnCommaAux rest []
    else splitOnCommaAux rest (c :: acc)

/-- str.split applied to a comma separator. -/
def splitOnComma (s : String) : List String := splitOnCommaAux s.data []

/-- Python default whitespace for str.strip. -/
def isWS (c : Char) : Bool := c = ' ' || c = '\t' || c = '\n' || c = '\r'

/-- str.strip: drop leading and trailing whitespace. -/
def trimStr (s : String) : String :=
  String.mk (((s.data.dropWhile isWS).reverse.dropWhile isWS).reverse)

/-- AbilityProcessor.get_subtypes: comma-split of the raw subtype string with
each tag stripped, empty string giving no tags. -/
def getSubtypes (subtype : String) : List String :=
  if subtype = "" then [] else (splitOnComma subtype).map trimStr

/-- AbilityProcessor.has_subtype. -/
def hasSubtype (info : CardInfo) (t : String) : Bool :=
  (getSubtypes info.subtype).contains t

/-- AbilityProcessor.get_effective_attack: base attack plus the accumulated
attack modifier, floored at zero. -/
def getEffectiveAttack (c : CardInst) : Int :=
  max 0 (c.info.attack + c.attackModifier)

/-- Does the haystack start with the pattern? -/
def charsStartWith : List Char → List Char → Bool
  | [], _ => true
  | _ :: _, [] => false
  | a :: as, b :: bs => a = b && charsStartWith as bs

/-- Substring search over character lists. -/
def charsContain (hay pat : List Char) : Bool :=
  match hay with
  | [] => pat.isEmpty
  | _ :: rest => charsStartWith pat hay || charsContain rest pat

/-- Substring test, used by the python in-operator on raw strings. -/
def strContains (s pat : String) : Bool := charsContain s.data pat.data

-- ========== AREA CONTROL ==========

/-- Body of the accumulate_capture_power loop for one capturable location:
middle-zone units contribute their attack, units in the opposing home zone
contribute twice their attack; controlled locations are skipped. -/
def accumulateStep (s : GMState) (l : Location) : GMState :=
  match s.locationControl l with
  | some _ => s
  | none =>
    let ld := s.battlefield l
    let atkPower := sumAttack ld.middleZone.attacker + 2 * sumAttack ld.defenderZone.attacker
    let defPower := sumAttack ld.middleZone.defender + 2 * sumAttack ld.attackerZone.defender
    let old := s.capturePower l
    { s with capturePower :=
        updLoc s.capturePower l ⟨old.attacker + atkPower, old.defender + defPower⟩ }

/-- GameManager.accumulate_capture_power. -/
def accumulateCapturePower (s : GMState) : GMState :=
  CAPTURABLE_LOCATIONS.foldl accumulateStep s

/-- GameManager.get_capture_threshold: base 5 plus the current health of all
enemy cards at the location, over all three zones. -/
def getCaptureThreshold (s : GMState) (l : Location) (forPlayer : Player) : Int :=
  let enemy := forPlayer.other
  ZONES.foldl (fun a z => a + sumHealth (((s.battlefield l).zone z).side enemy))
    CAPTURE_THRESHOLD

/-- GameManager._on_location_captured: bump the bonus draw counter of the
captor and reset the capture ledger of the location (UI callback dropped). -/
def onLocationCaptured (s : GMState) (l : Location) (p : Player) : GMState :=
  let s1 := match p with
    | .attacker => { s with attackerBonusDraws := s.attackerBonusDraws + 1 }
    | .defender => { s with defenderBonusDraws := s.defenderBonusDraws + 1 }
  { s1 with capturePower := updLoc s1.capturePower l ⟨0, 0⟩ }

/-- Record a capture: set the controller, extend the capture list, run the
side effects. -/
def applyCapture (s : GMState) (caps : List (Location × Player)) (l : Location)
    (p : Player) : GMState × List (Location × Player) :=
  let s1 := { s with locationControl := updLoc s.locationControl l (some p) }
  (onLocationCaptured s1 l p, caps ++ [(l, p)])

/-- Body of the check_captures loop for one capturable location. -/
def captureStep (acc : GMState × List (Location × Player)) (l : Location) :
    GMState × List (Location × Player) :=
  let (s, caps) := acc
  match s.locationControl l with
  | some _ => (s, caps)
  | none =>
    let mid := (s.battlefield l).middleZone
    let atkInMiddle : Bool := decide (0 < mid.attacker.length)
    let defInMiddle : Bool := decide (0 < mid.defender.length)
    let atkThreshold := getCaptureThreshold s l .attacker
    let defThreshold := getCaptureThreshold s l .defender
    let atkPower := (s.capturePower l).attacker
    let defPower := (s.capturePower l).defender
    let atkCanCapture := atkInMiddle && decide (atkPower ≥ atkThreshold)
    let defCanCapture := defInMiddle && decide (defPower ≥ defThreshold)
    if atkCanCapture && defCanCapture then
      if atkPower > defPower then applyCapture s caps l .attacker
      else if defPower > atkPower then applyCapture s caps l .defender
      else (s, caps)
    else if atkCanCapture then applyCapture s caps l .attacker
    else if defCanCapture then applyCapture s caps l .defender
    else (s, caps)

/-- GameManager.check_captures. -/
def checkCaptures (s : GMState) : GMState × List (Location × Player) :=
  CAPTURABLE_LOCATIONS.foldl captureStep (s, [])

/-- GameManager.get_max_draws: base 1 plus one bonus per captured area. -/
def getMaxDraws (s : GMState) (p : Player) : Nat :=
  let bonus := match p with
    | .attacker => s.attackerBonusDraws
    | .defender => s.defenderBonusDraws
  1 + bonus

/-- GameManager.can_draw_card: the per-phase has-drawn boolean is the only
check. -/
def canDrawCard (s : GMState) (p : Player) : Bool :=
  match p with
  | .attacker => ¬ s.attackerHasDrawn
  | .defender => ¬ s.defenderHasDrawn

/-- GameManager.get_draws_remaining. -/
def getDrawsRemaining (s : GMState) (p : Player) : Nat :=
  let drawn := match p with
    | .attacker => if s.attackerHasDrawn then 1 else 0
    | .defender => if s.defenderHasDrawn then 1 else 0
  getMaxDraws s p - drawn

-- ========== CARD CATALOG ==========

/-- The entries of utility/cards_database.py CARDS_DATA used in this
development, with their exact values; rows not referenced by any claim are
omitted.  Fields are [Type, Subtype, Species, Attack, Health, Cost, Name,
Skills]. -/
def cardsDB : String → Option CardInfo := fun id =>
  if id = "Avatar" then some ⟨"Unit", "Leader", "", 2, 2, 0, "Avatar", ""⟩
  else if id = "Footman" then some ⟨"Unit", "", "Human", 2, 2, 2, "Footman", ""⟩
  else if id = "Archer" then some ⟨"Unit", "Ranged", "Human", 3, 2, 3, "Archer", ""⟩
  else if id = "Eagle" then some ⟨"Unit", "Ranged,Scout", "Eagle", 0, 1, 1, "Eagle",
    "It cannot scout over closed areas"⟩
  else if id = "War_Hound" then some ⟨"Unit", "Scout", "Dog", 1, 1, 1, "War Hound", ""⟩
  else if id = "Guardian" then some ⟨"Unit", "", "Human", 2, 4, 3, "Guardian", ""⟩
  else if id = "Pikeman" then some ⟨"Unit", "AntiCavalry", "Human", 2, 3, 2, "Pikeman",
    "Deals double damage to mounted units"⟩
  else if id = "Shieldbearer" then some ⟨"Unit", "Taunt", "Human", 1, 5, 3, "Shieldbearer",
    "Mark: Enemies must attack this unit first"⟩
  else if id = "Berserker" then some ⟨"Unit", "Frenzy", "Human", 5, 2, 4, "Berserker",
    "Enraged: Gains +2 attack when damaged"⟩
  else if id = "Crossbowman" then some ⟨"Unit", "Ranged,Piercing", "Human", 4, 2, 4, "Crossbowman",
    "Trueshot: Ignores 1 point of enemy health"⟩
  else if id = "Heavy_Cavalry" then some ⟨"Unit", "Mounted,Charge", "Human", 4, 4, 5, "Heavy Cavalry",
    "Empowered Strike:Deals +2 damage on first attack"⟩
  else if id = "Dire_Wolf" then some ⟨"Unit", "Scout,Pack", "Beast", 2, 2, 2, "Dire Wolf",
    "Gains +1 attack per other wolf in area"⟩
  else if id = "War_Bear" then some ⟨"Unit", "Intimidate", "Beast", 4, 5, 5, "War Bear",
    "Weakening: Enemies deal -1 damage"⟩
  else if id = "Battle_Mage" then some ⟨"Unit", "Ranged,Magic", "Human", 3, 2, 4, "Battle Mage",
    "Attacks deal magic damage (ignores armor)"⟩
  else if id = "Healer" then some ⟨"Unit", "Support", "Human", 0, 2, 3, "Healer",
    "Heals 1 health to all allies at end of turn"⟩
  else if id = "Warlock" then some ⟨"Unit", "Magic,Curse", "Human", 2, 3, 4, "Warlock",
    "On play: enemy unit loses 1 attack"⟩
  else if id = "Necromancer" then some ⟨"Unit", "Magic,Summon", "Human", 2, 2, 5, "Necromancer",
    "Last Whisper: summons a Skeleton"⟩
  else if id = "Druid" then some ⟨"Unit", "Magic,Nature", "Human", 1, 3, 3, "Druid",
    "Beasts in same area gain +1/+1"⟩
  else if id = "Spy" then some ⟨"Unit", "Scout,Stealth", "Human", 1, 1, 2, "Spy",
    "Reveals all enemy cards in area"⟩
  else if id = "Assassin" then some ⟨"Unit", "Stealth,Execute", "Human", 4, 1, 4, "Assassin",
    "On play: deal 2 damage to weakest enemy"⟩
  else if id = "Saboteur" then some ⟨"Unit", "Stealth", "Human", 1, 2, 3, "Saboteur",
    "On play: destroy enemy siege weapon"⟩
  else if id = "Skeleton" then some ⟨"Unit", "Undead", "Undead", 1, 1, 1, "Skeleton", ""⟩
  else if id = "Wraith" then some ⟨"Unit", "Undead,Ethereal", "Undead", 3, 2, 4, "Wraith",
    "Takes half damage from non-magic attacks"⟩
  else if id = "Templar" then some ⟨"Unit", "Holy", "Human", 3, 4, 5, "Templar",
    "Deals double damage to Undead"⟩
  else if id = "General" then some ⟨"Unit", "Commander", "Human", 3, 4, 6, "General",
    "All allies gain +1/+1"⟩
  else none

-- ========== LIST HELPERS ==========

/-- Apply a function to the element at an index, identity when out of range. -/
def listModify (cs : List CardInst) (i : Nat) (f : CardInst → CardInst) : List CardInst :=
  match cs[i]? with
  | some c => cs.set i (f c)
  | none => cs

/-- Index of the first card of minimal current health (the weakest-enemy scan
of the Assassin on-play effect: strict comparison keeps the first minimum). -/
def weakestIndex (cs : List CardInst) : Nat :=
  match cs with
  | [] => 0
  | c :: _ =>
    (cs.enum.foldl
      (fun acc ic => if ic.2.currentHealth < acc.2 then (ic.1, ic.2.currentHealth) else acc)
      (0, c.currentHealth)).1

/-- Index of the last card satisfying a predicate (the backwards scan with
break of the Saboteur on-play effect removes the last match). -/
def lastIdxWhere (pred : CardInst → Bool) (cs : List CardInst) : Option Nat :=
  cs.enum.foldl (fun acc ic => if pred ic.2 then some ic.1 else acc) none

-- ========== ABILITY RESOLVER: ON-PLAY ==========

/-- AbilityProcessor.process_on_play: the state mutations of the on-play
abilities, in source order (Assassin, Curse, Saboteur, Spy has no state
effect, Inspire, Commander, Nature), all scoped to the placement zone.
Ally comparisons mirror the python value inequality against the placed
card dict. -/
def processOnPlay (s : GMState) (l : Location) (cardVal : CardInst) (p : Player)
    (z : Zone) : GMState :=
  let subtypes := getSubtypes cardVal.info.subtype
  let enemy := p.other
  let zc0 := (s.battlefield l).zone z
  -- Assassin: deal 2 damage to the weakest enemy in the zone, remove it if dead
  let zc1 :=
    if subtypes.contains "Execute" && cardVal.cardId == "Assassin" then
      let ecs := zc0.side enemy
      if ecs.isEmpty then zc0
      else
        let wi := weakestIndex ecs
        let ecs1 := listModify ecs wi (fun c => { c with currentHealth := c.currentHealth - 2 })
        let ecs2 :=
          match ecs1[wi]? with
          | some c => if c.currentHealth ≤ 0 then ecs1.eraseIdx wi else ecs1
          | none => ecs1
        zc0.setSide enemy ecs2
    else zc0
  -- Warlock curse: the first enemy loses 1 attack
  let zc2 :=
    if subtypes.contains "Curse" then
      zc1.setSide enemy
        (listModify (zc1.side enemy) 0 (fun c => { c with attackModifier := c.attackModifier - 1 }))
    else zc1
  -- Saboteur: destroy the last enemy with a Siege or Machinery tag
  let zc3 :=
    if subtypes.contains "Stealth" && cardVal.cardId == "Saboteur" then
      match lastIdxWhere (fun c => hasSubtype c.info "Siege" || hasSubtype c.info "Machinery")
          (zc2.side enemy) with
      | some i => zc2.setSide enemy ((zc2.side enemy).eraseIdx i)
      | none => zc2
    else zc2
  -- Inspire: every other ally in the zone gains +1 attack
  let zc4 :=
    if subtypes.contains "Inspire" then
      zc3.setSide p ((zc3.side p).map fun a =>
        if a = cardVal then a else { a with attackModifier := a.attackModifier + 1 })
    else zc3
  -- Commander: every other ally gains +1/+1
  let zc5 :=
    if subtypes.contains "Commander" then
      zc4.setSide p ((zc4.side p).map fun a =>
        if a = cardVal then a
        else { a with attackModifier := a.attackModifier + 1,
                      healthModifier := a.healthModifier + 1,
                      currentHealth := a.currentHealth + 1 })
    else zc4
  -- Nature: beasts in the zone gain +1/+1
  let zc6 :=
    if subtypes.contains "Nature" then
      zc5.setSide p ((zc5.side p).map fun a =>
        if a.info.species == "Beast" then
          { a with attackModifier := a.attackModifier + 1,
                   healthModifier := a.healthModifier + 1,
                   currentHealth := a.currentHealth + 1 }
        else a)
    else zc5
  { s with battlefield := updLoc s.battlefield l ((s.battlefield l).setZone z zc6) }

-- ========== DRAW / PLACE / MOVE ==========

/-- Set the per-phase has-drawn flag of a side. -/
def setHasDrawn (s : GMState) (p : Player) (b : Bool) : GMState :=
  match p with
  | .attacker => { s with attackerHasDrawn := b }
  | .defender => { s with defenderHasDrawn := b }

/-- GameManager.draw_card_to_queue: look the card up and append a queue entry
whose timer is the card cost. -/
def drawCardToQueue (s : GMState) (cardId : String) (p : Player) : Bool × GMState :=
  match cardsDB cardId with
  | none => (false, s)
  | some info =>
    (true, { s with queue := s.queue ++ [⟨cardId, info, info.cost, p⟩] })

/-- GameManager.draw_card_from_deck: reject when the per-phase flag is set,
otherwise remove the card from the deck, queue it and mark the flag.  As in
the source, the deck removal happens before the catalog lookup. -/
def drawCardFromDeck (s : GMState) (cardId : String) (p : Player) : Bool × GMState :=
  if ¬ canDrawCard s p then (false, s)
  else if (s.decks p).contains cardId then
    let s1 := { s with decks := updPlayer s.decks p ((s.decks p).erase cardId) }
    let r := drawCardToQueue s1 cardId p
    if r.1 then (true, setHasDrawn r.2 p true)
    else (false, r.2)
  else (false, s)

/-- GameManager.place_card_on_battlefield: access check, append the fresh
instance to the chosen zone, claim the middle zone for the first placer,
then run the on-play abilities in that zone. -/
def placeCardOnBattlefield (s : GMState) (l : Location) (cardId : String)
    (info : CardInfo) (p : Player) (z : Zone) : Bool × GMState :=
  if ¬ canPlaceAtLocation s l p then (false, s)
  else
    let entry : CardInst :=
      { cardId := cardId, info := info, isTapped := false,
        currentHealth := info.health, turnPlaced := s.currentTurn,
        hasMovedThisTurn := false, attackModifier := 0, healthModifier := 0,
        hasCharged := false }
    let zc := (s.battlefield l).zone z
    let ld1 := (s.battlefield l).setZone z (zc.setSide p (zc.side p ++ [entry]))
    let ld2 :=
      if z = Zone.middleZone && ld1.firstPlacer == none then
        { ld1 with firstPlacer := some p }
      else ld1
    let s1 := { s with battlefield := updLoc s.battlefield l ld2 }
    (true, processOnPlay s1 l entry p z)

/-- GameManager.can_specific_card_move: not placed this turn and not already
moved this turn. -/
def canSpecificCardMove (s : GMState) (c : CardInst) : Bool :=
  decide (c.turnPlaced < s.currentTurn) && ¬ c.hasMovedThisTurn

/-- GameManager.can_move_card (zoned version): some card of the side can
still move. -/
def canMoveCard (s : GMState) (p : Player) : Bool :=
  LOCATIONS.any fun l => ZONES.any fun z =>
    (((s.battlefield l).zone z).side p).any (canSpecificCardMove s)

/-- The zone search of move_card when no source zone is given: walk the
zones in order, accumulating a running index. -/
def locateCard (ld : LocData) (p : Player) (idx : Nat) : Option (Zone × Nat) :=
  let a := ((ld.zone .attackerZone).side p).length
  let m := ((ld.zone .middleZone).side p).length
  let d := ((ld.zone .defenderZone).side p).length
  if idx < a then some (.attackerZone, idx)
  else if idx < a + m then some (.middleZone, idx - a)
  else if idx < a + m + d then some (.defenderZone, idx - a - m)
  else none

/-- GameManager.move_card (zoned version): adjacency and access checks, per
card movement check, remove-then-append, first-placer claim on the middle
zone.  The per-side has-moved flags are not consulted or set here, exactly
as in the source. -/
def moveCard (s : GMState) (fromLoc toLoc : Location) (cardIndex : Nat)
    (p : Player) (fromZone : Option Zone) (toZone : Zone) : Bool × GMState :=
  if ¬ areAdjacent fromLoc toLoc then (false, s)
  else if ¬ canPlaceAtLocation s toLoc p then (false, s)
  else
    let found : Option (Zone × Nat) :=
      match fromZone with
      | some z =>
        if cardIndex < (((s.battlefield fromLoc).zone z).side p).length then
          some (z, cardIndex)
        else none
      | none => locateCard (s.battlefield fromLoc) p cardIndex
    match found with
    | none => (false, s)
    | some (srcZone, i) =>
      let srcCards := ((s.battlefield fromLoc).zone srcZone).side p
      match srcCards[i]? with
      | none => (false, s)
      | some card =>
        if ¬ canSpecificCardMove s card then (false, s)
        else
          let moved := { card with hasMovedThisTurn := true }
          let bf1 := setCards s.battlefield fromLoc srcZone p (srcCards.eraseIdx i)
          let destZc := (bf1 toLoc).zone toZone
          let destLd1 := (bf1 toLoc).setZone toZone (destZc.setSide p (destZc.side p ++ [moved]))
          let destLd2 :=
            if toZone = Zone.middleZone && destLd1.firstPlacer == none then
              { destLd1 with firstPlacer := some p }
            else destLd1
          (true, { s with battlefield := updLoc bf1 toLoc destLd2 })

-- ========== TURN PROCESSING ==========

/-- GameManager.add_card_to_hand. -/
def addCardToHand (s : GMState) (cardId : String) (info : CardInfo) (p : Player) : GMState :=
  { s with hands := updPlayer s.hands p (s.hands p ++ [⟨cardId, info⟩]) }

/-- GameManager.remove_card_from_hand: pop the first hand card with the id. -/
def removeCardFromHand (s : GMState) (cardId : String) (p : Player) : GMState :=
  { s with hands :=
      updPlayer s.hands p ((s.hands p).eraseP (fun c => c.cardId == cardId)) }

/-- GameManager.process_turn: decrement every queue timer; entries reaching
zero leave the queue and join their owner hand.  The python loop walks the
queue from the back, so arrivals enter hands in back-to-front order. -/
def processTurn (s : GMState) : GMState :=
  let dec := s.queue.map fun e => { e with turnsRemaining := e.turnsRemaining - 1 }
  let arrivals := (dec.reverse).filter fun e => decide (e.turnsRemaining ≤ 0)
  let s1 := { s with queue := dec.filter fun e => ¬ decide (e.turnsRemaining ≤ 0) }
  arrivals.foldl (fun st e => addCardToHand st e.cardId e.info e.player) s1

/-- Maximum health of an instance: base health plus the health modifier. -/
def maxHealthOf (c : CardInst) : Int := c.info.health + c.healthModifier

/-- One Healer tick on one ally. -/
def healStep (c : CardInst) : CardInst :=
  let mh := maxHealthOf c
  if c.currentHealth < mh then { c with currentHealth := min mh (c.currentHealth + 1) }
  else c

/-- Is this card the Healer (Support tag and the Healer id)? -/
def isHealer (c : CardInst) : Bool :=
  hasSubtype c.info "Support" && c.cardId == "Healer"

/-- The end-of-turn scan over one side of one zone: each Healer encountered
heals the whole list, in iteration order. -/
def healLoop : Nat → Nat → List CardInst → List CardInst
  | 0, _, cs => cs
  | fuel + 1, i, cs =>
    match cs[i]? with
    | none => cs
    | some c =>
      if isHealer c then healLoop fuel (i + 1) (cs.map healStep)
      else healLoop fuel (i + 1) cs

/-- AbilityProcessor.process_end_of_turn restricted to one card list. -/
def healZoneSide (cs : List CardInst) : List CardInst := healLoop cs.length 0 cs

/-- AbilityProcessor.process_end_of_turn at one location: all zones, both
sides, in source order. -/
def processEndOfTurnAt (s : GMState) (l : Location) : GMState :=
  ZONES.foldl
    (fun st z =>
      [Player.attacker, Player.defender].foldl
        (fun st2 p =>
          { st2 with battlefield :=
              setCards st2.battlefield l z p (healZoneSide (((st2.battlefield l).zone z).side p)) })
        st)
    s

/-- The end-of-turn ability pass over every location. -/
def processEndOfTurnAll (s : GMState) : GMState :=
  LOCATIONS.foldl processEndOfTurnAt s

/-- Reset is_tapped and has_moved_this_turn on one side of a zone. -/
def resetZoneSide (z : ZoneCards) (p : Player) : ZoneCards :=
  z.setSide p ((z.side p).map fun c =>
    { c with isTapped := false, hasMovedThisTurn := false })

/-- GameManager.untap_cards (zoned version): untap and clear the movement
flag of every card of the side, everywhere. -/
def untapCards (s : GMState) (p : Player) : GMState :=
  { s with battlefield := fun l =>
      let ld := s.battlefield l
      { attackerZone := resetZoneSide ld.attackerZone p,
        middleZone := resetZoneSide ld.middleZone p,
        defenderZone := resetZoneSide ld.defenderZone p,
        firstPlacer := ld.firstPlacer } }

/-- GameManager.tap_card. -/
def tapCard (s : GMState) (l : Location) (i : Nat) (p : Player) (z : Zone) : GMState :=
  let tapped := listModify (((s.battlefield l).zone z).side p) i
    (fun c => { c with isTapped := true })
  { s with battlefield := setCards s.battlefield l z p tapped }

/-- GameManager.end_turn: the attacker pass hands control to the defender and
resets the defender per-phase flags; the defender pass, when the attacker
already passed, runs the turn resolution pipeline — reinforcements,
end-of-turn abilities, capture accumulation, capture checks — then resets
all flags, advances the turn counter and untaps the attacker. -/
def endTurn (s : GMState) : GMState :=
  match s.currentPlayer with
  | .attacker =>
    untapCards
      { s with attackerHasPassed := true, currentPlayer := .defender,
               defenderHasDrawn := false, defenderHasMoved := false }
      .defender
  | .defender =>
    let s1 := { s with defenderHasPassed := true }
    if s1.attackerHasPassed && s1.defenderHasPassed then
      let s2 := processTurn s1
      let s3 := processEndOfTurnAll s2
      let s4 := accumulateCapturePower s3
      let s5 := (checkCaptures s4).1
      let s6 :=
        { s5 with attackerHasPassed := false, defenderHasPassed := false,
                  attackerHasDrawn := false, defenderHasDrawn := false,
                  attackerHasMoved := false, defenderHasMoved := false,
                  currentTurn := s5.currentTurn + 1, currentPlayer := .attacker }
      untapCards s6 .attacker
    else s1

-- ========== COMBAT SYSTEM ==========

/-- One per-card entry of the combat modifier table, with the dict.get
defaults of the source (damage_reduction is never read and is dropped). -/
structure ModRec where
  attack : Int
  mustBeTargeted : Bool
  antiMounted : Bool
deriving DecidableEq, Repr

/-- The modifier table: the attacker key holds the first card list handed to
process_combat_modifiers, the defender key the second. -/
def Mods := Player → Nat → ModRec

/-- Update one cell of the modifier table. -/
def updMod (m : Mods) (p : Player) (i : Nat) (f : ModRec → ModRec) : Mods :=
  fun q j => if q = p ∧ j = i then f (m q j) else m q j

/-- The modifier contributions of one card, in source order: Taunt, Frenzy
(an assignment, overwriting earlier values), Charge, Intimidate (hits every
enemy index), Pack (counts other Dire Wolves by dict value inequality),
AntiCavalry. -/
def modStepCard (cards1 cards2 : List CardInst) (side : Player) (i : Nat)
    (c : CardInst) (m : Mods) : Mods :=
  let subs := getSubtypes c.info.subtype
  let cards := match side with
    | .attacker => cards1
    | .defender => cards2
  let enemyCards := match side with
    | .attacker => cards2
    | .defender => cards1
  let m1 := if subs.contains "Taunt" then
      updMod m side i (fun r => { r with mustBeTargeted := true }) else m
  let m2 := if subs.contains "Frenzy" && decide (c.currentHealth < c.info.health) then
      updMod m1 side i (fun r => { r with attack := 2 }) else m1
  let m3 := if subs.contains "Charge" && ¬ c.hasCharged then
      let bonus : Int := if strContains c.cardId "Heavy_Cavalry" then 2 else 1
      updMod m2 side i (fun r => { r with attack := r.attack + bonus }) else m2
  let m4 := if subs.contains "Intimidate" then
      (List.range enemyCards.length).foldl
        (fun mm j => updMod mm side.other j (fun r => { r with attack := r.attack - 1 })) m3
    else m3
  let m5 := if subs.contains "Pack" then
      let wolfCount : Int :=
        (cards.filter (fun c2 => strContains c2.cardId "Dire_Wolf" && c2 ≠ c)).length
      updMod m4 side i (fun r => { r with attack := r.attack + wolfCount }) else m4
  if subs.contains "AntiCavalry" then
    updMod m5 side i (fun r => { r with antiMounted := true }) else m5

/-- AbilityProcessor.process_combat_modifiers. -/
def processCombatModifiers (cards1 cards2 : List CardInst) : Mods :=
  let base : Mods := fun _ _ => ⟨0, false, false⟩
  let afterFirst := cards1.enum.foldl
    (fun m ic => modStepCard cards1 cards2 .attacker ic.1 ic.2 m) base
  cards2.enum.foldl (fun m ic => modStepCard cards1 cards2 .defender ic.1 ic.2 m) afterFirst

/-- One entry of CombatResult.attacks. -/
structure AttackRec where
  attackerSide : Player
  attackerCard : String
  defenderCard : Option String
  damage : Int
  blocked : Bool
deriving DecidableEq, Repr

/-- CombatResult, restricted to the fields resolve_combat_with_assignments
fills in. -/
structure CombatRes where
  location : Location
  zone : Zone
  attacks : List AttackRec
  attackerCasualties : List String
  defenderCasualties : List String
deriving DecidableEq, Repr

/-- Add into a damage table. -/
def updAdd (f : Nat → Int) (i : Nat) (d : Int) : Nat → Int :=
  fun j => if j = i then f j + d else f j

/-- Blocker assignments as sent on the wire: attacker index to blocker
indices, missing keys defaulting to the empty list. -/
def lookupAsg (asg : List (Nat × List Nat)) (i : Nat) : List Nat :=
  match asg.find? (fun kv => kv.1 == i) with
  | some kv => kv.2
  | none => []

/-- Does this card summon a Skeleton on death (Necromancer)? -/
def isNecroSummoner (c : CardInst) : Bool :=
  hasSubtype c.info "Summon" && c.cardId == "Necromancer"

/-- The Skeleton token created by the Necromancer on-death effect, with the
dict.get defaults for the keys the summon does not set. -/
def skeletonInst : Option CardInst :=
  match cardsDB "Skeleton" with
  | some info =>
    some { cardId := "Skeleton", info := info, isTapped := true,
           currentHealth := info.health, turnPlaced := 0,
           hasMovedThisTurn := false, attackModifier := 0, healthModifier := 0,
           hasCharged := false }
  | none => none

/-- The backwards dead-removal loop of combat resolution: walk the list from
the back, pop corpses, collect casualty names, let a dying Necromancer append
a Skeleton to the end of the same list (beyond the sweep range). -/
def deathSweep : Nat → List CardInst → List String → List CardInst × List String
  | 0, cs, cas => (cs, cas)
  | n + 1, cs, cas =>
    match cs[n]? with
    | none => deathSweep n cs cas
    | some c =>
      if c.currentHealth ≤ 0 then
        let cs1 := cs.eraseIdx n
        let cs2 :=
          if isNecroSummoner c then
            match skeletonInst with
            | some sk => cs1 ++ [sk]
            | none => cs1
          else cs1
        deathSweep n cs2 (cas ++ [c.cardId])
      else deathSweep n cs cas

/-- Accumulator of the per-attacker loop of
resolve_combat_with_assignments. -/
structure CombatAcc where
  dmgToAttackers : Nat → Int
  dmgToDefenders : Nat → Int
  recs : List AttackRec

/-- The body of the per-attacker loop: a blocked attacker deals its full
modified damage (anti-mounted, Piercing, Holy, Ethereal) to the first listed
blocker only, and every listed blocker strikes back; an unblocked attacker
only produces a log entry. -/
def combatAttackerStep (mods : Mods) (attackerSide : Player)
    (defenderCards : List CardInst) (assignments : List (Nat × List Nat))
    (acc : CombatAcc) (atkIdx : Nat) (atkCard : CardInst) : CombatAcc :=
  let defenderSide := attackerSide.other
  let blockerIndices := lookupAsg assignments atkIdx
  let baseDamage := getEffectiveAttack atkCard
  let atkMod := mods attackerSide atkIdx
  let atkDamage := baseDamage + atkMod.attack
  let atkSubs := getSubtypes atkCard.info.subtype
  match blockerIndices with
  | [] =>
    { acc with recs := acc.recs ++
        [⟨attackerSide, atkCard.cardId, none, atkDamage, false⟩] }
  | primary :: _ =>
    let acc1 :=
      match defenderCards[primary]? with
      | none => acc
      | some blocker =>
        let d0 := atkDamage
        let d1 := if atkMod.antiMounted && hasSubtype blocker.info "Mounted" then d0 * 2 else d0
        let d2 := if atkSubs.contains "Piercing" then d1 + 1 else d1
        let d3 := if atkSubs.contains "Holy" && blocker.info.species == "Undead" then d2 * 2 else d2
        let d4 := if hasSubtype blocker.info "Ethereal" && ¬ atkSubs.contains "Magic" then
            Int.fdiv d3 2 else d3
        let damage := max 0 d4
        { acc with
            dmgToDefenders := updAdd acc.dmgToDefenders primary damage,
            recs := acc.recs ++
              [⟨attackerSide, atkCard.cardId, some blocker.cardId, damage, true⟩] }
    blockerIndices.foldl
      (fun a blockerIdx =>
        match defenderCards[blockerIdx]? with
        | none => a
        | some blocker =>
          let b0 := getEffectiveAttack blocker + (mods defenderSide blockerIdx).attack
          let b1 := if atkSubs.contains "Ethereal" && ¬ hasSubtype blocker.info "Magic" then
              Int.fdiv b0 2 else b0
          let blockerDamage := max 0 b1
          { a with dmgToAttackers := updAdd a.dmgToAttackers atkIdx blockerDamage })
      acc1

/-- GameManager.resolve_combat_with_assignments: resolve one zone of one
location under a blocker assignment.  The taunt indices the source computes
here are never consulted, so no Taunt restriction is enforced; the modifier
table is read under the attacker_side and defender_side keys exactly as in
the source. -/
def resolveCombatWithAssignments (s : GMState) (loc : Location)
    (assignments : List (Nat × List Nat)) (attackerSide : Player) (zone : Zone) :
    CombatRes × GMState :=
  let defenderSide := attackerSide.other
  let zc := (s.battlefield loc).zone zone
  let attackerCards := zc.side attackerSide
  let defenderCards := zc.side defenderSide
  if attackerCards.isEmpty || defenderCards.isEmpty then
    (⟨loc, zone, [], [], []⟩, s)
  else
    let mods := processCombatModifiers attackerCards defenderCards
    let acc0 : CombatAcc := ⟨fun _ => 0, fun _ => 0, []⟩
    let acc := attackerCards.enum.foldl
      (fun a ic => combatAttackerStep mods attackerSide defenderCards assignments a ic.1 ic.2)
      acc0
    let chargedAtk := attackerCards.map fun c =>
      if (getSubtypes c.info.subtype).contains "Charge" then { c with hasCharged := true } else c
    let atkDamaged := chargedAtk.enum.map fun ic =>
      { ic.2 with currentHealth := ic.2.currentHealth - acc.dmgToAttackers ic.1 }
    let defDamaged := defenderCards.enum.map fun ic =>
      { ic.2 with currentHealth := ic.2.currentHealth - acc.dmgToDefenders ic.1 }
    let atkSwept := deathSweep atkDamaged.length atkDamaged []
    let defSwept := deathSweep defDamaged.length defDamaged []
    let bf1 := setCards s.battlefield loc zone attackerSide atkSwept.1
    let bf2 := setCards bf1 loc zone defenderSide defSwept.1
    (⟨loc, zone, acc.recs, atkSwept.2, defSwept.2⟩, { s with battlefield := bf2 })

-- ========== WIN CONDITION ==========

/-- Does the side still own an Avatar on the battlefield? -/
def avatarOnBattlefield (s : GMState) (p : Player) : Bool :=
  LOCATIONS.any fun l => ZONES.any fun z =>
    (((s.battlefield l).zone z).side p).any fun c => c.cardId == "Avatar"

/-- Does the side still own an Avatar anywhere: battlefield, hand or
reinforcement queue? -/
def hasAvatar (s : GMState) (p : Player) : Bool :=
  avatarOnBattlefield s p
    || (s.hands p).any (fun c => c.cardId == "Avatar")
    || s.queue.any (fun e => e.cardId == "Avatar" && e.player == p)

/-- GameManager.check_win_condition: the attacker absence is checked first,
then the defender absence. -/
def checkWinCondition (s : GMState) : Option Player :=
  if ¬ hasAvatar s .attacker then some .defender
  else if ¬ hasAvatar s .defender then some .attacker
  else none

-- ========== MATCH SESSION (game_server.py GameSession) ==========

/-- GameManager.get_blocker_side: home zones have a fixed blocker, the
middle zone belongs to the first placer (possibly no one). -/
def getBlockerSide (s : GMState) (l : Location) (z : Zone) : Option Player :=
  match z with
  | .attackerZone => some .attacker
  | .defenderZone => some .defender
  | .middleZone => (s.battlefield l).firstPlacer

/-- GameManager.get_combat_zones_at_location: the zones with cards of both
sides, in zone order. -/
def getCombatZonesAtLocation (s : GMState) (l : Location) : List Zone :=
  ZONES.filter fun z =>
    let zc := (s.battlefield l).zone z
    ¬ zc.attacker.isEmpty && ¬ zc.defender.isEmpty

/-- The session state of one match: engine state, pending combat queue,
the pair awaiting blocker selection, the decided winner.  The stored
assignment dict of the source is never read back and is dropped. -/
structure Session where
  gm : GMState
  pending : List (Location × Zone)
  awaiting : Option (Location × Zone)
  winner : Option Player
  isActive : Bool

/-- GameSession.handle_action for the end_turn verb: guarded by the combat
phase and the turn check; when the engine advanced the turn, enumerate the
contested zones, park the session on the first one, and only consult the
win condition when no combat is pending. -/
def handleEndTurnAction (sess : Session) (p : Player) : Bool × Session :=
  if sess.awaiting.isSome then (false, sess)
  else if sess.gm.currentPlayer ≠ p then (false, sess)
  else
    let prevTurn := sess.gm.currentTurn
    let gm1 := endTurn sess.gm
    if prevTurn < gm1.currentTurn then
      let zones := LOCATIONS.foldl
        (fun acc l => acc ++ (getCombatZonesAtLocation gm1 l).map (fun z => (l, z))) []
      match zones with
      | first :: _ =>
        (true, { sess with gm := gm1, pending := zones, awaiting := some first })
      | [] =>
        match checkWinCondition gm1 with
        | some w =>
          (true, { sess with gm := gm1, pending := [], winner := some w, isActive := false })
        | none => (true, { sess with gm := gm1, pending := [] })
    else (true, { sess with gm := gm1 })

/-- GameSession._handle_combat_assignments: only the zone blocker side may
submit; the assignment is applied as sent, the pair leaves the queue, the
session advances to the next pending pair or closes the combat phase and
checks the win condition. -/
def handleCombatAssignments (sess : Session) (p : Player)
    (assignments : List (Nat × List Nat)) : Bool × Session :=
  match sess.awaiting with
  | none => (false, sess)
  | some lz =>
    let blockerSide := getBlockerSide sess.gm lz.1 lz.2
    if blockerSide ≠ some p then (false, sess)
    else
      let attackerSide :=
        if blockerSide = some Player.attacker then Player.defender else Player.attacker
      let r := resolveCombatWithAssignments sess.gm lz.1 assignments attackerSide lz.2
      let pending1 := sess.pending.erase lz
      match pending1 with
      | next :: _ =>
        (true, { sess with gm := r.2, pending := pending1, awaiting := some next })
      | [] =>
        match checkWinCondition r.2 with
        | some w =>
          let sess1 := { sess with gm := r.2, pending := ([] : List (Location × Zone)) }
          (true, { sess1 with awaiting := none, winner := some w, isActive := false })
        | none =>
          (true, { sess with gm := r.2, pending := [], awaiting := none })

-- ========== FOG-OF-WAR PROJECTION ==========

/-- The fields of GameSession._serialize_card.  Hand cards lack battlefield
keys, so current health serialises as the python None. -/
structure SerializedCard where
  cardId : String
  name : String
  attack : Int
  health : Int
  cost : Int
  subtype : String
  special : String
  currentHealth : Option Int
  isTapped : Bool
  turnPlaced : Nat
  hasMovedThisTurn : Bool
  canMove : Bool
deriving DecidableEq, Repr

/-- Serialize a battlefield instance. -/
def serializeCard (gm : GMState) (c : CardInst) : SerializedCard :=
  { cardId := c.cardId, name := c.info.name, attack := c.info.attack,
    health := c.info.health, cost := c.info.cost, subtype := c.info.subtype,
    special := c.info.special, currentHealth := some c.currentHealth,
    isTapped := c.isTapped, turnPlaced := c.turnPlaced,
    hasMovedThisTurn := c.hasMovedThisTurn,
    canMove := decide (c.turnPlaced < gm.currentTurn) && ¬ c.hasMovedThisTurn }

/-- Serialize a hand card: every battlefield key falls back to its
dict.get default. -/
def serializeHandCard (gm : GMState) (h : HandCard) : SerializedCard :=
  { cardId := h.cardId, name := h.info.name, attack := h.info.attack,
    health := h.info.health, cost := h.info.cost, subtype := h.info.subtype,
    special := h.info.special, currentHealth := none, isTapped := false,
    turnPlaced := 0, hasMovedThisTurn := false,
    canMove := decide (0 < gm.currentTurn) }

/-- One zone of the per-player battlefield view: own cards in full, enemy
cards only when the location predicate passes, the enemy count always. -/
structure ZoneView where
  ownCards : List SerializedCard
  enemyCards : Option (List SerializedCard)
  enemyCount : Nat
  firstPlacer : Option Player
deriving DecidableEq, Repr

/-- The capture block of the view: power and thresholds only exist for
capturable locations. -/
structure CaptureView where
  capturable : Bool
  controller : Option Player
  attackerPower : Option Int
  defenderPower : Option Int
  attackerThreshold : Option Int
  defenderThreshold : Option Int
deriving DecidableEq, Repr

/-- GameManager.get_location_capture_info. -/
def getLocationCaptureInfo (s : GMState) (l : Location) : CaptureView :=
  if ¬ CAPTURABLE_LOCATIONS.contains l then
    ⟨false, s.locationControl l, none, none, none, none⟩
  else
    ⟨true, s.locationControl l,
      some (s.capturePower l).attacker, some (s.capturePower l).defender,
      some (getCaptureThreshold s l .attacker), some (getCaptureThreshold s l .defender)⟩

/-- One location of the per-player view. -/
structure LocView where
  zones : Zone → ZoneView
  canSee : Bool
  controller : Option Player
  captureInfo : CaptureView

/-- The scout test of the projection: the raw subtype string contains
Scout as a substring. -/
def scoutInList (cs : List CardInst) : Bool :=
  cs.any fun c => strContains c.info.subtype "Scout"

/-- The per-location fog-of-war projection of
GameSession.get_game_state_for_player: the viewer sees enemy cards exactly
when it has a unit of its own at the location or a Scout-tagged unit
there. -/
def locView (gm : GMState) (viewer : Player) (l : Location) : LocView :=
  let own := fun z => ((gm.battlefield l).zone z).side viewer
  let enemy := fun z => ((gm.battlefield l).zone z).side viewer.other
  let hasPresence := ZONES.any fun z => ¬ (own z).isEmpty
  let hasScout := ZONES.any fun z => scoutInList (own z)
  let canSee := hasPresence || hasScout
  { zones := fun z =>
      { ownCards := (own z).map (serializeCard gm),
        enemyCards := if canSee then some ((enemy z).map (serializeCard gm)) else none,
        enemyCount := (enemy z).length,
        firstPlacer := if z = Zone.middleZone then (gm.battlefield l).firstPlacer else none },
    canSee := canSee,
    controller := gm.locationControl l,
    captureInfo := getLocationCaptureInfo gm l }

/-- The combat block of the view. -/
structure CombatView where
  location : Location
  zone : Zone
  blockerSide : Option Player
  isYourTurnToAssign : Bool
  attackers : List SerializedCard
  yourBlockers : List SerializedCard
deriving DecidableEq, Repr

/-- The combat_state block of get_game_state_for_player: the non-blocking
cards of the awaited zone go out as attackers, the blocker cards only to the
blocker side. -/
def combatViewFor (sess : Session) (viewer : Player) : Option CombatView :=
  match sess.awaiting with
  | none => none
  | some lz =>
    let gm := sess.gm
    let blockerSide := getBlockerSide gm lz.1 lz.2
    let isYour : Bool := blockerSide == some viewer
    let atkCards := ((gm.battlefield lz.1).zone lz.2).attacker
    let defCards := ((gm.battlefield lz.1).zone lz.2).defender
    let pair :=
      if blockerSide == some Player.attacker then
        (defCards.map (serializeCard gm),
         if isYour then atkCards.map (serializeCard gm) else [])
      else
        (atkCards.map (serializeCard gm),
         if isYour then defCards.map (serializeCard gm) else [])
    some ⟨lz.1, lz.2, blockerSide, isYour, pair.1, pair.2⟩

/-- The full per-player state view. -/
structure GameStateView where
  turn : Nat
  currentPlayer : Player
  yourRole : Player
  isYourTurn : Bool
  battlefield : Location → LocView
  hand : List SerializedCard
  reinforcements : List (String × Int)
  deckCount : Nat
  canDraw : Bool
  canMove : Bool
  deckCards : List String
  combatState : Option CombatView
  winner : Option Player

/-- GameSession.get_game_state_for_player. -/
def getGameStateForPlayer (sess : Session) (viewer : Player) : GameStateView :=
  let gm := sess.gm
  { turn := gm.currentTurn,
    currentPlayer := gm.currentPlayer,
    yourRole := viewer,
    isYourTurn := gm.currentPlayer == viewer,
    battlefield := fun l => locView gm viewer l,
    hand := (gm.hands viewer).map (serializeHandCard gm),
    reinforcements :=
      (gm.queue.filter (fun e => e.player == viewer)).map fun e => (e.cardId, e.turnsRemaining),
    deckCount := (gm.decks viewer).length,
    canDraw := canDrawCard gm viewer,
    canMove := canMoveCard gm viewer,
    deckCards := gm.decks viewer,
    combatState := combatViewFor sess viewer,
    winner := sess.winner }

-- ========== OPERATION INVENTORY ==========

/-- The state-mutating engine operations, for trace properties. -/
inductive Op where
  | drawFromDeck (cardId : String) (p : Player)
  | place (l : Location) (cardId : String) (info : CardInfo) (p : Player) (z : Zone)
  | move (fromLoc toLoc : Location) (i : Nat) (p : Player) (fz : Option Zone) (tz : Zone)
  | endTurnOp
  | resolveCombat (l : Location) (asg : List (Nat × List Nat)) (atkSide : Player) (z : Zone)
  | processTurnOp
  | endOfTurnAbilities
  | accumulate
  | captures
  | untap (p : Player)
  | tapOp (l : Location) (i : Nat) (p : Player) (z : Zone)
  | addHand (cardId : String) (info : CardInfo) (p : Player)
  | removeHand (cardId : String) (p : Player)

/-- Run one engine operation, keeping the state component. -/
def applyOp (s : GMState) : Op → GMState
  | .drawFromDeck c p => (drawCardFromDeck s c p).2
  | .place l c info p z => (placeCardOnBattlefield s l c info p z).2
  | .move fl tl i p fz tz => (moveCard s fl tl i p fz tz).2
  | .endTurnOp => endTurn s
  | .resolveCombat l a ak z => (resolveCombatWithAssignments s l a ak z).2
  | .processTurnOp => processTurn s
  | .endOfTurnAbilities => processEndOfTurnAll s
  | .accumulate => accumulateCapturePower s
  | .captures => (checkCaptures s).1
  | .untap p => untapCards s p
  | .tapOp l i p z => tapCard s l i p z
  | .addHand c info p => addCardToHand s c info p
  | .removeHand c p => removeCardFromHand s c p

/-- Run a sequence of engine operations. -/
def applyOps (s : GMState) (ops : List Op) : GMState := ops.foldl applyOp s

/-- Capture power of one side. -/
def CapPower.side (cp : CapPower) : Player → Int
  | .attacker => cp.attacker
  | .defender => cp.defender

-- ========== EXAMPLE STATES (for witnesses and counterexamples) ==========

/-- A location with no cards and no middle-zone claim. -/
def emptyLoc : LocData := ⟨⟨[], []⟩, ⟨[], []⟩, ⟨[], []⟩, none⟩

/-- The initial location_control table of GameManager.__init__. -/
def initControl : Location → Option Player
  | .camp => some .attacker
  | .forest => some .attacker
  | .courtyard => some .defender
  | .keep => some .defender
  | _ => none

/-- A fresh engine state as built by GameManager.__init__ (empty board,
default decks, turn 1, attacker to act). -/
def initGM : GMState :=
  { currentTurn := 1, currentPlayer := .attacker,
    attackerHasPassed := false, defenderHasPassed := false,
    attackerHasDrawn := false, defenderHasDrawn := false,
    attackerHasMoved := false, defenderHasMoved := false,
    queue := [], battlefield := fun _ => emptyLoc,
    hands := fun _ => [],
    decks := fun p => match p with
      | .attacker => ["Footman", "Footman", "Archer", "Eagle", "Knight"]
      | .defender => ["Footman", "Footman", "Knight", "War_Hound", "Guardian"],
    locationControl := initControl,
    capturePower := fun _ => ⟨0, 0⟩,
    attackerBonusDraws := 0, defenderBonusDraws := 0 }

/-- Build a battlefield instance of a catalog card placed on some turn. -/
def cardOf (id : String) (tp : Nat) : CardInst :=
  match cardsDB id with
  | some info =>
    { cardId := id, info := info, isTapped := false, currentHealth := info.health,
      turnPlaced := tp, hasMovedThisTurn := false, attackModifier := 0,
      healthModifier := 0, hasCharged := false }
  | none =>
    { cardId := id, info := ⟨"", "", "", 0, 0, 0, "", ""⟩, isTapped := false,
      currentHealth := 0, turnPlaced := tp, hasMovedThisTurn := false,
      attackModifier := 0, healthModifier := 0, hasCharged := false }

/-- A state about to be captured: one attacker Footman in the Gate middle
zone, 7 accumulated attacker power against a threshold of 5. -/
def gmCap : GMState :=
  { initGM with
    battlefield := updLoc initGM.battlefield .gate
      { attackerZone := ⟨[], []⟩,
        middleZone := ⟨[cardOf "Footman" 1], []⟩,
        defenderZone := ⟨[], []⟩,
        firstPlacer := some .attacker },
    capturePower := updLoc initGM.capturePower .gate ⟨7, 0⟩ }

/-- A state with two attacker Footman units in the Camp middle zone, both
placed on an earlier turn; used for movement properties. -/
def gmMove : GMState :=
  { initGM with
    battlefield := updLoc initGM.battlefield .camp
      { attackerZone := ⟨[], []⟩,
        middleZone := ⟨[cardOf "Footman" 0, cardOf "Footman" 0], []⟩,
        defenderZone := ⟨[], []⟩,
        firstPlacer := some .attacker } }

/-- A state whose single Camp middle-zone unit has already moved this turn. -/
def gmMoved : GMState :=
  { initGM with
    battlefield := updLoc initGM.battlefield .camp
      { attackerZone := ⟨[], []⟩,
        middleZone := ⟨[{ cardOf "Footman" 0 with hasMovedThisTurn := true }], []⟩,
        defenderZone := ⟨[], []⟩,
        firstPlacer := some .attacker } }

/-- Declarative reading of Avatar presence: the side owns an Avatar at some
battlefield location and zone, or in its hand, or in the reinforcement
queue. -/
def avatarPresent (s : GMState) (p : Player) : Prop :=
  (∃ l ∈ LOCATIONS, ∃ z ∈ ZONES, ∃ c ∈ ((s.battlefield l).zone z).side p, c.cardId = "Avatar")
  ∨ (∃ c ∈ s.hands p, c.cardId = "Avatar")
  ∨ (∃ e ∈ s.queue, e.cardId = "Avatar" ∧ e.player = p)

/-- An Avatar hand card, as dealt by GameSession._setup_starting_hands. -/
def handAvatar : HandCard := ⟨"Avatar", (cardOf "Avatar" 0).info⟩

/-- Combat about to resolve in the Gate middle zone: the defender claimed
the zone first (so it assigns blockers) and fields a Taunt Shieldbearer plus
a plain Footman against one attacking Footman. -/
def gmC3 : GMState :=
  { initGM with
    hands := fun _ => [handAvatar],
    battlefield := updLoc initGM.battlefield .gate
      { attackerZone := ⟨[], []⟩,
        middleZone := ⟨[cardOf "Footman" 1], [cardOf "Shieldbearer" 1, cardOf "Footman" 1]⟩,
        defenderZone := ⟨[], []⟩,
        firstPlacer := some .defender } }

/-- The session parked on that Gate middle-zone combat. -/
def sessC3 : Session :=
  { gm := gmC3, pending := [(.gate, .middleZone)],
    awaiting := some (.gate, .middleZone), winner := none, isActive := true }

/-- A turn about to resolve with a contested Gate middle zone: the attacker
passed, the defender is about to pass. -/
def gmC5 : GMState :=
  { initGM with
    currentPlayer := .defender, attackerHasPassed := true,
    hands := fun _ => [handAvatar],
    battlefield := updLoc initGM.battlefield .gate
      { attackerZone := ⟨[], []⟩,
        middleZone := ⟨[cardOf "Footman" 1], [cardOf "Footman" 1]⟩,
        defenderZone := ⟨[], []⟩,
        firstPlacer := some .attacker } }

/-- The corresponding idle session. -/
def sessC5 : Session :=
  { gm := gmC5, pending := [], awaiting := none, winner := none, isActive := true }

/-- A fog-of-war scenario: the defender has a Footman at the Keep and the
attacker has nothing there. -/
def gmC4 : GMState :=
  { initGM with
    hands := fun _ => [handAvatar],
    battlefield := updLoc initGM.battlefield .keep
      { attackerZone := ⟨[], []⟩,
        middleZone := ⟨[], []⟩,
        defenderZone := ⟨[], [cardOf "Footman" 1]⟩,
        firstPlacer := none } }

/-- The corresponding idle session. -/
def sessC4 : Session :=
  { gm := gmC4, pending := [], awaiting := none, winner := none, isActive := true }

-- ========== THEOREMS ==========

theorem updLoc_eq_self {α : Type} (f : Location → α) (l : Location) (v : α) :
    updLoc f l v l = v := by
  simp [updLoc]

theorem updLoc_eq_ne {α : Type} (f : Location → α) {l x : Location} (v : α)
    (h : x ≠ l) : updLoc f l v x = f x := by
  simp [updLoc, h]

theorem accumulateStep_control (s : GMState) (m : Location) :
    (accumulateStep s m).locationControl = s.locationControl := by
  unfold accumulateStep
  split <;> rfl

theorem accumulateStep_battlefield (s : GMState) (m : Location) :
    (accumulateStep s m).battlefield = s.battlefield := by
  unfold accumulateStep
  split <;> rfl

theorem accumulateStep_power_ne (s : GMState) (m l : Location) (h : l ≠ m) :
    (accumulateStep s m).capturePower l = s.capturePower l := by
  unfold accumulateStep
  split
  · rfl
  · exact updLoc_eq_ne _ _ h

theorem accumulateStep_power_none (s : GMState) (m : Location)
    (h : s.locationControl m = none) :
    (accumulateStep s m).capturePower m =
      ⟨(s.capturePower m).attacker + (sumAttack (s.battlefield m).middleZone.attacker
          + 2 * sumAttack (s.battlefield m).defenderZone.attacker),
       (s.capturePower m).defender + (sumAttack (s.battlefield m).middleZone.defender
          + 2 * sumAttack (s.battlefield m).attackerZone.defender)⟩ := by
  unfold accumulateStep
  rw [h]
  exact updLoc_eq_self _ _ _

theorem accumulateStep_power_some (s : GMState) (m : Location) (p : Player)
    (h : s.locationControl m = some p) :
    (accumulateStep s m).capturePower m = s.capturePower m := by
  unfold accumulateStep
  rw [h]

theorem getCaptureThreshold_congr {s1 s2 : GMState} (l : Location) (p : Player)
    (h : s1.battlefield = s2.battlefield) :
    getCaptureThreshold s1 l p = getCaptureThreshold s2 l p := by
  unfold getCaptureThreshold
  rw [h]

/-- C9: at every uncaptured capturable location, accumulate_capture_power adds
exactly the middle-zone attack sum plus twice the enemy-home-zone attack sum
for each side; controlled locations accumulate nothing. -/
theorem claim_C9_accumulate_capture_power (s : GMState) (l : Location)
    (hl : l ∈ CAPTURABLE_LOCATIONS) :
    (s.locationControl l = none →
      (accumulateCapturePower s).capturePower l =
        ⟨(s.capturePower l).attacker + (sumAttack (s.battlefield l).middleZone.attacker
            + 2 * sumAttack (s.battlefield l).defenderZone.attacker),
         (s.capturePower l).defender + (sumAttack (s.battlefield l).middleZone.defender
            + 2 * sumAttack (s.battlefield l).attackerZone.defender)⟩)
    ∧ (∀ p : Player, s.locationControl l = some p →
        (accumulateCapturePower s).capturePower l = s.capturePower l) := by
  have hacc : accumulateCapturePower s =
      accumulateStep (accumulateStep (accumulateStep s .gate) .walls) .sewers := rfl
  fin_cases hl
  · -- l = gate
    constructor
    · intro h0
      rw [hacc, accumulateStep_power_ne _ _ _ (by decide),
        accumulateStep_power_ne _ _ _ (by decide)]
      exact accumulateStep_power_none s .gate h0
    · intro p hp
      rw [hacc, accumulateStep_power_ne _ _ _ (by decide),
        accumulateStep_power_ne _ _ _ (by decide)]
      exact accumulateStep_power_some s .gate p hp
  · -- l = walls
    have hc1 : (accumulateStep s .gate).locationControl .walls = s.locationControl .walls := by
      rw [accumulateStep_control]
    have hb1 : (accumulateStep s .gate).battlefield = s.battlefield :=
      accumulateStep_battlefield s .gate
    have hp1 : (accumulateStep s .gate).capturePower .walls = s.capturePower .walls :=
      accumulateStep_power_ne s .gate .walls (by decide)
    constructor
    · intro h0
      rw [hacc, accumulateStep_power_ne _ _ _ (by decide),
        accumulateStep_power_none _ _ (by rw [hc1]; exact h0), hb1, hp1]
    · intro p hp
      rw [hacc, accumulateStep_power_ne _ _ _ (by decide),
        accumulateStep_power_some _ _ p (by rw [hc1]; exact hp), hp1]
  · -- l = sewers
    have hc1 : (accumulateStep (accumulateStep s .gate) .walls).locationControl .sewers
        = s.locationControl .sewers := by
      rw [accumulateStep_control, accumulateStep_control]
    have hb1 : (accumulateStep (accumulateStep s .gate) .walls).battlefield = s.battlefield := by
      rw [accumulateStep_battlefield, accumulateStep_battlefield]
    have hp1 : (accumulateStep (accumulateStep s .gate) .walls).capturePower .sewers
        = s.capturePower .sewers := by
      rw [accumulateStep_power_ne _ _ _ (by decide), accumulateStep_power_ne _ _ _ (by decide)]
    constructor
    · intro h0
      rw [hacc, accumulateStep_power_none _ _ (by rw [hc1]; exact h0), hb1, hp1]
    · intro p hp
      rw [hacc, accumulateStep_power_some _ _ p (by rw [hc1]; exact hp), hp1]

/-- Witness for C9 at a concrete state: the fresh engine state has an
uncontrolled Gate, and the accumulation formula holds there. -/
theorem claim_C9_witness :
    initGM.locationControl .gate = none ∧
    (accumulateCapturePower initGM).capturePower .gate =
      ⟨(initGM.capturePower .gate).attacker
          + (sumAttack (initGM.battlefield .gate).middleZone.attacker
            + 2 * sumAttack (initGM.battlefield .gate).defenderZone.attacker),
       (initGM.capturePower .gate).defender
          + (sumAttack (initGM.battlefield .gate).middleZone.defender
            + 2 * sumAttack (initGM.battlefield .gate).attackerZone.defender)⟩ :=
  ⟨by decide, (claim_C9_accumulate_capture_power initGM .gate (by decide)).1 (by decide)⟩

theorem applyCapture_fst_battlefield (s : GMState) (caps : List (Location × Player))
    (l : Location) (p : Player) :
    (applyCapture s caps l p).1.battlefield = s.battlefield := by
  cases p <;> rfl

theorem applyCapture_control_self (s : GMState) (caps : List (Location × Player))
    (l : Location) (p : Player) :
    (applyCapture s caps l p).1.locationControl l = some p := by
  cases p <;> simp [applyCapture, onLocationCaptured, updLoc]

theorem applyCapture_control_ne (s : GMState) (caps : List (Location × Player))
    (l : Location) (p : Player) (x : Location) (h : x ≠ l) :
    (applyCapture s caps l p).1.locationControl x = s.locationControl x := by
  cases p <;> simp [applyCapture, onLocationCaptured, updLoc, h]

theorem applyCapture_power_self (s : GMState) (caps : List (Location × Player))
    (l : Location) (p : Player) :
    (applyCapture s caps l p).1.capturePower l = ⟨0, 0⟩ := by
  cases p <;> simp [applyCapture, onLocationCaptured, updLoc]

theorem applyCapture_power_ne (s : GMState) (caps : List (Location × Player))
    (l : Location) (p : Player) (x : Location) (h : x ≠ l) :
    (applyCapture s caps l p).1.capturePower x = s.capturePower x := by
  cases p <;> simp [applyCapture, onLocationCaptured, updLoc, h]

/-- Each check_captures loop body either leaves the state alone or performs
one applyCapture at its own location. -/
theorem captureStep_shape (acc : GMState × List (Location × Player)) (m : Location) :
    captureStep acc m = acc ∨ ∃ p, captureStep acc m = applyCapture acc.1 acc.2 m p := by
  obtain ⟨s, caps⟩ := acc
  show captureStep (s, caps) m = (s, caps) ∨
    ∃ p, captureStep (s, caps) m = applyCapture s caps m p
  rcases hctl : s.locationControl m with _ | q
  · simp only [captureStep, hctl]
    by_cases h1 : ((decide (0 < (s.battlefield m).middleZone.attacker.length)
          && decide ((s.capturePower m).attacker ≥ getCaptureThreshold s m Player.attacker))
        && (decide (0 < (s.battlefield m).middleZone.defender.length)
          && decide ((s.capturePower m).defender ≥ getCaptureThreshold s m Player.defender)))
        = true
    · rw [if_pos h1]
      by_cases h2 : (s.capturePower m).defender < (s.capturePower m).attacker
      · rw [if_pos h2]; exact Or.inr ⟨.attacker, rfl⟩
      · rw [if_neg h2]
        by_cases h3 : (s.capturePower m).attacker < (s.capturePower m).defender
        · rw [if_pos h3]; exact Or.inr ⟨.defender, rfl⟩
        · rw [if_neg h3]; exact Or.inl rfl
    · rw [if_neg h1]
      by_cases h2 : (decide (0 < (s.battlefield m).middleZone.attacker.length)
          && decide ((s.capturePower m).attacker ≥ getCaptureThreshold s m Player.attacker)) = true
      · rw [if_pos h2]; exact Or.inr ⟨.attacker, rfl⟩
      · rw [if_neg h2]
        by_cases h3 : (decide (0 < (s.battlefield m).middleZone.defender.length)
            && decide ((s.capturePower m).defender ≥ getCaptureThreshold s m Player.defender)) = true
        · rw [if_pos h3]; exact Or.inr ⟨.defender, rfl⟩
        · rw [if_neg h3]; exact Or.inl rfl
  · simp [captureStep, hctl]

theorem captureStep_skip (acc : GMState × List (Location × Player)) (m : Location)
    (p : Player) (h : acc.1.locationControl m = some p) :
    captureStep acc m = acc := by
  obtain ⟨s, caps⟩ := acc
  replace h : s.locationControl m = some p := h
  simp [captureStep, h]

theorem captureStep_battlefield (acc : GMState × List (Location × Player)) (m : Location) :
    (captureStep acc m).1.battlefield = acc.1.battlefield := by
  rcases captureStep_shape acc m with hs | ⟨p, hp⟩
  · rw [hs]
  · rw [hp]; exact applyCapture_fst_battlefield _ _ _ _

theorem captureStep_control_ne (acc : GMState × List (Location × Player)) (m x : Location)
    (h : x ≠ m) :
    (captureStep acc m).1.locationControl x = acc.1.locationControl x := by
  rcases captureStep_shape acc m with hs | ⟨p, hp⟩
  · rw [hs]
  · rw [hp]; exact applyCapture_control_ne _ _ _ _ _ h

theorem captureStep_power_ne (acc : GMState × List (Location × Player)) (m x : Location)
    (h : x ≠ m) :
    (captureStep acc m).1.capturePower x = acc.1.capturePower x := by
  rcases captureStep_shape acc m with hs | ⟨p, hp⟩
  · rw [hs]
  · rw [hp]; exact applyCapture_power_ne _ _ _ _ _ h

/-- A side that comes out of one check_captures body as the new controller
had a middle-zone presence and power at or above its threshold. -/
theorem captureStep_only_if (acc : GMState × List (Location × Player)) (m : Location)
    (h : acc.1.locationControl m = none) (p : Player)
    (hc : (captureStep acc m).1.locationControl m = some p) :
    0 < ((acc.1.battlefield m).middleZone.side p).length ∧
      getCaptureThreshold acc.1 m p ≤ (acc.1.capturePower m).side p := by
  obtain ⟨s, caps⟩ := acc
  replace h : s.locationControl m = none := h
  replace hc : (captureStep (s, caps) m).1.locationControl m = some p := hc
  show 0 < ((s.battlefield m).middleZone.side p).length ∧
      getCaptureThreshold s m p ≤ (s.capturePower m).side p
  simp only [captureStep, h] at hc
  split at hc
  · rename_i hcond
    simp only [Bool.and_eq_true, decide_eq_true_eq] at hcond
    split at hc
    · rw [applyCapture_control_self] at hc
      obtain rfl : Player.attacker = p := Option.some.injEq _ _ ▸ hc
      exact ⟨hcond.1.1, hcond.1.2⟩
    · split at hc
      · rw [applyCapture_control_self] at hc
        obtain rfl : Player.defender = p := Option.some.injEq _ _ ▸ hc
        exact ⟨hcond.2.1, hcond.2.2⟩
      · exact absurd hc (by rw [h]; simp)
  · split at hc
    · rename_i hcond
      simp only [Bool.and_eq_true, decide_eq_true_eq] at hcond
      rw [applyCapture_control_self] at hc
      obtain rfl : Player.attacker = p := Option.some.injEq _ _ ▸ hc
      exact ⟨hcond.1, hcond.2⟩
    · split at hc
      · rename_i hcond
        simp only [Bool.and_eq_true, decide_eq_true_eq] at hcond
        rw [applyCapture_control_self] at hc
        obtain rfl : Player.defender = p := Option.some.injEq _ _ ▸ hc
        exact ⟨hcond.1, hcond.2⟩
      · exact absurd hc (by rw [h]; simp)

/-- When both sides qualify in one check_captures body, the strictly higher
power side wins and a tie leaves the location uncontrolled. -/
theorem captureStep_both (acc : GMState × List (Location × Player)) (m : Location)
    (h : acc.1.locationControl m = none)
    (hA1 : 0 < (acc.1.battlefield m).middleZone.attacker.length)
    (hA2 : getCaptureThreshold acc.1 m .attacker ≤ (acc.1.capturePower m).attacker)
    (hD1 : 0 < (acc.1.battlefield m).middleZone.defender.length)
    (hD2 : getCaptureThreshold acc.1 m .defender ≤ (acc.1.capturePower m).defender) :
    ((acc.1.capturePower m).defender < (acc.1.capturePower m).attacker →
      (captureStep acc m).1.locationControl m = some Player.attacker)
    ∧ ((acc.1.capturePower m).attacker < (acc.1.capturePower m).defender →
      (captureStep acc m).1.locationControl m = some Player.defender)
    ∧ ((acc.1.capturePower m).attacker = (acc.1.capturePower m).defender →
      (captureStep acc m).1.locationControl m = none) := by
  obtain ⟨s, caps⟩ := acc
  replace h : s.locationControl m = none := h
  replace hA1 : 0 < (s.battlefield m).middleZone.attacker.length := hA1
  replace hA2 : getCaptureThreshold s m .attacker ≤ (s.capturePower m).attacker := hA2
  replace hD1 : 0 < (s.battlefield m).middleZone.defender.length := hD1
  replace hD2 : getCaptureThreshold s m .defender ≤ (s.capturePower m).defender := hD2
  have hcond : ((decide (0 < (s.battlefield m).middleZone.attacker.length)
        && decide ((s.capturePower m).attacker ≥ getCaptureThreshold s m Player.attacker))
      && (decide (0 < (s.battlefield m).middleZone.defender.length)
        && decide ((s.capturePower m).defender ≥ getCaptureThreshold s m Player.defender)))
      = true := by
    simp [hA1, hA2, hD1, hD2, ge_iff_le]
  refine ⟨fun hgt => ?_, fun hlt => ?_, fun heq => ?_⟩
  · simp only [captureStep, h]
    rw [if_pos hcond, if_pos hgt]
    exact applyCapture_control_self _ _ _ _
  · simp only [captureStep, h]
    rw [if_pos hcond, if_neg (by exact not_lt_of_gt hlt), if_pos hlt]
    exact applyCapture_control_self _ _ _ _
  · simp only [captureStep, h]
    rw [if_pos hcond, if_neg (by rw [heq]; exact lt_irrefl _),
      if_neg (by rw [heq]; exact lt_irrefl _)]
    exact h

/-- C1: at an uncontrolled capturable location, a side becomes controller
through check_captures only with a middle-zone unit and power at or above its
threshold; when both sides qualify, the strictly higher power wins and a tie
leaves the location uncontrolled. -/
theorem claim_C1_check_captures (s : GMState) (l : Location)
    (hl : l ∈ CAPTURABLE_LOCATIONS) (h0 : s.locationControl l = none) :
    (∀ p : Player, (checkCaptures s).1.locationControl l = some p →
        0 < ((s.battlefield l).middleZone.side p).length ∧
        getCaptureThreshold s l p ≤ (s.capturePower l).side p)
    ∧ (0 < (s.battlefield l).middleZone.attacker.length →
       getCaptureThreshold s l .attacker ≤ (s.capturePower l).attacker →
       0 < (s.battlefield l).middleZone.defender.length →
       getCaptureThreshold s l .defender ≤ (s.capturePower l).defender →
        ((s.capturePower l).defender < (s.capturePower l).attacker →
            (checkCaptures s).1.locationControl l = some Player.attacker)
        ∧ ((s.capturePower l).attacker < (s.capturePower l).defender →
            (checkCaptures s).1.locationControl l = some Player.defender)
        ∧ ((s.capturePower l).attacker = (s.capturePower l).defender →
            (checkCaptures s).1.locationControl l = none)) := by
  have hcc : checkCaptures s =
      captureStep (captureStep (captureStep (s, ([] : List (Location × Player))) .gate)
        .walls) .sewers := rfl
  fin_cases hl
  · -- l = gate
    have e1 : (checkCaptures s).1.locationControl .gate =
        (captureStep (s, ([] : List (Location × Player))) .gate).1.locationControl .gate := by
      rw [hcc, captureStep_control_ne _ _ _ (by decide),
        captureStep_control_ne _ _ _ (by decide)]
    constructor
    · intro p hp
      exact captureStep_only_if (s, []) .gate h0 p (by rw [← e1]; exact hp)
    · intro hA1 hA2 hD1 hD2
      have hb := captureStep_both (s, []) .gate h0 hA1 hA2 hD1 hD2
      rw [← e1] at hb
      exact hb
  · -- l = walls
    have hbw : (captureStep (s, ([] : List (Location × Player))) .gate).1.battlefield
        = s.battlefield := captureStep_battlefield _ _
    have hcw : (captureStep (s, ([] : List (Location × Player))) .gate).1.locationControl .walls
        = s.locationControl .walls := captureStep_control_ne _ _ _ (by decide)
    have hpw : (captureStep (s, ([] : List (Location × Player))) .gate).1.capturePower .walls
        = s.capturePower .walls := captureStep_power_ne _ _ _ (by decide)
    have hthr : ∀ p : Player,
        getCaptureThreshold (captureStep (s, ([] : List (Location × Player))) .gate).1 .walls p
          = getCaptureThreshold s .walls p :=
      fun p => getCaptureThreshold_congr _ _ hbw
    have e1 : (checkCaptures s).1.locationControl .walls =
        (captureStep (captureStep (s, ([] : List (Location × Player))) .gate)
          .walls).1.locationControl .walls := by
      rw [hcc, captureStep_control_ne _ _ _ (by decide)]
    constructor
    · intro p hp
      have h2 := captureStep_only_if _ .walls (by rw [hcw]; exact h0) p (by rw [← e1]; exact hp)
      rw [hbw, hthr p, hpw] at h2
      exact h2
    · intro hA1 hA2 hD1 hD2
      have hb := captureStep_both _ .walls (by rw [hcw]; exact h0)
        (by rw [hbw]; exact hA1) (by rw [hthr, hpw]; exact hA2)
        (by rw [hbw]; exact hD1) (by rw [hthr, hpw]; exact hD2)
      rw [hpw, ← e1] at hb
      exact hb
  · -- l = sewers
    have hbw : (captureStep (captureStep (s, ([] : List (Location × Player))) .gate)
        .walls).1.battlefield = s.battlefield := by
      rw [captureStep_battlefield, captureStep_battlefield]
    have hcw : (captureStep (captureStep (s, ([] : List (Location × Player))) .gate)
        .walls).1.locationControl .sewers = s.locationControl .sewers := by
      rw [captureStep_control_ne _ _ _ (by decide), captureStep_control_ne _ _ _ (by decide)]
    have hpw : (captureStep (captureStep (s, ([] : List (Location × Player))) .gate)
        .walls).1.capturePower .sewers = s.capturePower .sewers := by
      rw [captureStep_power_ne _ _ _ (by decide), captureStep_power_ne _ _ _ (by decide)]
    have hthr : ∀ p : Player,
        getCaptureThreshold (captureStep (captureStep
          (s, ([] : List (Location × Player))) .gate) .walls).1 .sewers p
          = getCaptureThreshold s .sewers p :=
      fun p => getCaptureThreshold_congr _ _ hbw
    have e1 : (checkCaptures s).1.locationControl .sewers =
        (captureStep (captureStep (captureStep (s, ([] : List (Location × Player))) .gate)
          .walls) .sewers).1.locationControl .sewers := by
      rw [hcc]
    constructor
    · intro p hp
      have h2 := captureStep_only_if _ .sewers (by rw [hcw]; exact h0) p (by rw [← e1]; exact hp)
      rw [hbw, hthr p, hpw] at h2
      exact h2
    · intro hA1 hA2 hD1 hD2
      have hb := captureStep_both _ .sewers (by rw [hcw]; exact h0)
        (by rw [hbw]; exact hA1) (by rw [hthr, hpw]; exact hA2)
        (by rw [hbw]; exact hD1) (by rw [hthr, hpw]; exact hD2)
      rw [hpw, ← e1] at hb
      exact hb

/-- Witness for C1: in the concrete pre-capture state the attacker captures
the Gate, and the only-if conditions hold there. -/
theorem claim_C1_witness :
    gmCap.locationControl .gate = none ∧
    (checkCaptures gmCap).1.locationControl .gate = some Player.attacker ∧
    (0 < ((gmCap.battlefield .gate).middleZone.side Player.attacker).length ∧
      getCaptureThreshold gmCap .gate Player.attacker
        ≤ (gmCap.capturePower .gate).side Player.attacker) :=
  ⟨by decide, by decide,
    (claim_C1_check_captures gmCap .gate (by decide) (by decide)).1 .attacker (by decide)⟩

-- structural helpers for zones

theorem zone_setZone_self (ld : LocData) (z : Zone) (zc : ZoneCards) :
    (ld.setZone z zc).zone z = zc := by
  cases z <;> rfl

theorem side_setSide_self (zc : ZoneCards) (p : Player) (cs : List CardInst) :
    (zc.setSide p cs).side p = cs := by
  cases p <;> rfl

theorem zone_withFirstPlacer (ld : LocData) (z : Zone) (x : Option Player) :
    ({ ld with firstPlacer := x } : LocData).zone z = ld.zone z := by
  cases z <;> rfl

theorem zoneSide_after_if (ld1 : LocData) (tz : Zone) (p : Player) (b : Bool)
    (q : Option Player) :
    ((if b = true then { ld1 with firstPlacer := q } else ld1).zone tz).side p
      = (ld1.zone tz).side p := by
  cases b <;> simp [zone_withFirstPlacer]

-- draw limit helpers

theorem canDrawCard_after_set (s : GMState) (p : Player) :
    canDrawCard (setHasDrawn s p true) p = false := by
  cases p <;> simp [canDrawCard, setHasDrawn]

/-- After any successful draw, the per-phase flag of that side is set. -/
theorem drawSuccess_flag (s : GMState) (c : String) (p : Player) (s1 : GMState)
    (h : drawCardFromDeck s c p = (true, s1)) :
    canDrawCard s1 p = false := by
  cases hcd : canDrawCard s p with
  | false => simp [drawCardFromDeck, hcd] at h
  | true =>
    cases hct : (s.decks p).contains c with
    | false =>
      have hmem : ¬ c ∈ s.decks p := by simpa using hct
      simp [drawCardFromDeck, hcd, hmem] at h
    | true =>
      have hmem : c ∈ s.decks p := by simpa using hct
      cases hdb : cardsDB c with
      | none => simp [drawCardFromDeck, drawCardToQueue, hcd, hmem, hdb] at h
      | some info =>
        simp [drawCardFromDeck, drawCardToQueue, hcd, hmem, hdb] at h
        rw [← h]
        exact canDrawCard_after_set _ _

/-- A draw attempt while the per-phase flag is already set is a strict no-op. -/
theorem drawBlocked (s : GMState) (c : String) (p : Player)
    (h : canDrawCard s p = false) :
    drawCardFromDeck s c p = (false, s) := by
  unfold drawCardFromDeck
  simp [h]

/-- C6: after a successful draw, any second draw attempt by the same side in
the same phase returns False and leaves the whole engine state unchanged. -/
theorem claim_C6_second_draw_noop (s : GMState) (c c2 : String) (p : Player)
    (s1 : GMState) (h : drawCardFromDeck s c p = (true, s1)) :
    drawCardFromDeck s1 c2 p = (false, s1) :=
  drawBlocked s1 c2 p (drawSuccess_flag s c p s1 h)

/-- Witness for C6: the fresh state draws Footman, then a second draw of
Archer in the same phase fails with the state unchanged. -/
theorem claim_C6_witness :
    (drawCardFromDeck initGM "Footman" .attacker).1 = true ∧
    drawCardFromDeck (drawCardFromDeck initGM "Footman" .attacker).2 "Archer" .attacker
      = (false, (drawCardFromDeck initGM "Footman" .attacker).2) :=
  ⟨rfl, claim_C6_second_draw_noop initGM "Footman" "Archer" .attacker _ rfl⟩

/-- C10: get_max_draws grows by one with each capture, but the limit check of
draw_card_from_deck is only the per-phase boolean: it ignores the bonus
counters entirely, and after one successful draw every further draw in the
phase fails no matter how many locations the side controls. -/
theorem claim_C10_bonus_draws_unusable (s : GMState) (p : Player) :
    (∀ (caps : List (Location × Player)) (l : Location),
      getMaxDraws (applyCapture s caps l p).1 p = getMaxDraws s p + 1)
    ∧ (∀ n m : Nat,
        canDrawCard { s with attackerBonusDraws := n, defenderBonusDraws := m } p
          = canDrawCard s p)
    ∧ (∀ (c : String) (s1 : GMState), drawCardFromDeck s c p = (true, s1) →
        ∀ c2 : String, drawCardFromDeck s1 c2 p = (false, s1)) := by
  refine ⟨fun caps l => ?_, fun n m => ?_, fun c s1 h c2 => ?_⟩
  · cases p <;> simp [applyCapture, onLocationCaptured, getMaxDraws] <;> omega
  · cases p <;> simp [canDrawCard]
  · exact drawBlocked s1 c2 p (drawSuccess_flag s c p s1 h)

/-- Witness for C10: applied at the fresh state for the attacker. -/
theorem claim_C10_witness :
    getMaxDraws (applyCapture initGM [] .gate .attacker).1 .attacker
        = getMaxDraws initGM .attacker + 1 ∧
    drawCardFromDeck (drawCardFromDeck initGM "Footman" .attacker).2 "Archer" .attacker
      = (false, (drawCardFromDeck initGM "Footman" .attacker).2) :=
  ⟨(claim_C10_bonus_draws_unusable initGM .attacker).1 [] .gate,
   (claim_C10_bonus_draws_unusable initGM .attacker).2.2 "Footman" _ rfl "Archer"⟩

/-- C2 counterexample: in a state with two units placed on an earlier turn,
the same side performs two successful card moves within one phase — the
zoned move_card never consults the per-side has-moved flag, so the second
attempt is not rejected. -/
theorem claim_C2_counterexample :
    (moveCard gmMove .camp .gate 0 .attacker none .middleZone).1 = true ∧
    (moveCard (moveCard gmMove .camp .gate 0 .attacker none .middleZone).2
        .camp .gate 0 .attacker none .middleZone).1 = true := by
  exact ⟨rfl, rfl⟩

/-- C2 amended: the move limit is per unit, not per side — a unit whose
has_moved_this_turn flag is set cannot move again (the call fails with the
state unchanged), and every successful move marks the moved unit. -/
theorem claim_C2_per_unit_move_limit :
    (∀ (s : GMState) (fl tl : Location) (i : Nat) (p : Player) (fz tz : Zone)
        (card : CardInst),
        (((s.battlefield fl).zone fz).side p)[i]? = some card →
        card.hasMovedThisTurn = true →
        moveCard s fl tl i p (some fz) tz = (false, s))
    ∧ (∀ (s : GMState) (fl tl : Location) (i : Nat) (p : Player) (fz : Option Zone)
        (tz : Zone) (s1 : GMState),
        moveCard s fl tl i p fz tz = (true, s1) →
        ∃ c : CardInst, (((s1.battlefield tl).zone tz).side p).getLast? = some c ∧
          c.hasMovedThisTurn = true) := by
  constructor
  · intro s fl tl i p fz tz card hcard hmoved
    cases hadj : areAdjacent fl tl with
    | false => simp [moveCard, hadj]
    | true =>
      cases hacc : canPlaceAtLocation s tl p with
      | false => simp [moveCard, hadj, hacc]
      | true =>
        have hlen : i < (((s.battlefield fl).zone fz).side p).length := by
          rcases List.getElem?_eq_some.mp hcard with ⟨hh, _⟩
          exact hh
        have hcm : canSpecificCardMove s card = false := by
          simp [canSpecificCardMove, hmoved]
        simp [moveCard, hadj, hacc, hlen, hcard, hcm]
  · intro s fl tl i p fz tz s1 h
    cases hadj : areAdjacent fl tl with
    | false => simp [moveCard, hadj] at h
    | true =>
    cases hacc : canPlaceAtLocation s tl p with
    | false => simp [moveCard, hadj, hacc] at h
    | true =>
    have hmain : ∀ (z0 : Zone) (i0 : Nat) (card : CardInst),
        s1.battlefield tl =
          (let bf1 := setCards s.battlefield fl z0 p
            ((((s.battlefield fl).zone z0).side p).eraseIdx i0)
           let destZc := (bf1 tl).zone tz
           let destLd1 := (bf1 tl).setZone tz (destZc.setSide p
             (destZc.side p ++ [{ card with hasMovedThisTurn := true }]))
           if tz = Zone.middleZone && destLd1.firstPlacer == none then
             { destLd1 with firstPlacer := some p }
           else destLd1) →
        ∃ c : CardInst, (((s1.battlefield tl).zone tz).side p).getLast? = some c ∧
          c.hasMovedThisTurn = true := by
      intro z0 i0 card hs1
      refine ⟨{ card with hasMovedThisTurn := true }, ?_, rfl⟩
      rw [hs1]
      simp only [zoneSide_after_if, zone_setZone_self, side_setSide_self,
        List.getLast?_concat]
    cases fz with
    | some z =>
      by_cases hlen : i < (((s.battlefield fl).zone z).side p).length
      · cases hc : (((s.battlefield fl).zone z).side p)[i]? with
        | none => simp [moveCard, hadj, hacc, hlen, hc] at h
        | some card =>
          cases hcm : canSpecificCardMove s card with
          | false => simp [moveCard, hadj, hacc, hlen, hc, hcm] at h
          | true =>
            refine hmain z i card ?_
            have hbf := congrArg (fun r => r.2.battlefield tl) h
            simp only at hbf
            rw [← hbf]
            simp [moveCard, hadj, hacc, hlen, hc, hcm, updLoc_eq_self]
      · simp [moveCard, hadj, hacc, hlen] at h
    | none =>
      cases hloc : locateCard (s.battlefield fl) p i with
      | none => simp [moveCard, hadj, hacc, hloc] at h
      | some zi =>
        cases hc : (((s.battlefield fl).zone zi.1).side p)[zi.2]? with
        | none => simp [moveCard, hadj, hacc, hloc, hc] at h
        | some card =>
          cases hcm : canSpecificCardMove s card with
          | false => simp [moveCard, hadj, hacc, hloc, hc, hcm] at h
          | true =>
            refine hmain zi.1 zi.2 card ?_
            have hbf := congrArg (fun r => r.2.battlefield tl) h
            simp only at hbf
            rw [← hbf]
            simp [moveCard, hadj, hacc, hloc, hc, hcm, updLoc_eq_self]

/-- Witness for the amended C2: a unit that has already moved cannot move
again (state unchanged), and the successful first move in the two-unit state
marks the moved unit. -/
theorem claim_C2_witness :
    moveCard gmMoved .camp .gate 0 .attacker (some .middleZone) .middleZone
      = (false, gmMoved) ∧
    (∃ c : CardInst,
      ((((moveCard gmMove .camp .gate 0 .attacker none .middleZone).2.battlefield
        .gate).zone .middleZone).side .attacker).getLast? = some c ∧
      c.hasMovedThisTurn = true) :=
  ⟨claim_C2_per_unit_move_limit.1 gmMoved .camp .gate 0 .attacker .middleZone .middleZone
      { cardOf "Footman" 0 with hasMovedThisTurn := true } (by decide) (by decide),
   claim_C2_per_unit_move_limit.2 gmMove .camp .gate 0 .attacker none .middleZone _ rfl⟩

-- win condition

theorem hasAvatar_iff (s : GMState) (p : Player) :
    hasAvatar s p = true ↔ avatarPresent s p := by
  unfold hasAvatar avatarOnBattlefield avatarPresent
  simp [List.any_eq_true, Bool.or_eq_true, Bool.and_eq_true, beq_iff_eq]
  exact or_assoc

/-- C8 counterexample: in a state with no Avatar anywhere for either side,
check_win_condition returns the Defender — the Defender Avatar is absent yet
the Attacker is not declared winner, because the attacker check runs
first. -/
theorem claim_C8_counterexample :
    hasAvatar initGM .defender = false ∧
    checkWinCondition initGM = some Player.defender ∧
    checkWinCondition initGM ≠ some Player.attacker :=
  ⟨by decide, by decide, by decide⟩

/-- C8 amended: if exactly one side lacks its Avatar everywhere in
battlefield, hand and queue, the opposing side is returned; with both
Avatars present no winner is returned; when both are absent the attacker
check fires first and the Defender is returned, so a declared winner only
guarantees that its opponent lost its Avatar. -/
theorem claim_C8_win_characterization (s : GMState) :
    (checkWinCondition s = none ↔ avatarPresent s .attacker ∧ avatarPresent s .defender)
    ∧ (¬ avatarPresent s .attacker → checkWinCondition s = some Player.defender)
    ∧ (avatarPresent s .attacker → ¬ avatarPresent s .defender →
        checkWinCondition s = some Player.attacker)
    ∧ (∀ w : Player, checkWinCondition s = some w → ¬ avatarPresent s w.other) := by
  have bA := hasAvatar_iff s .attacker
  have bD := hasAvatar_iff s .defender
  unfold checkWinCondition
  cases hA : hasAvatar s .attacker <;> cases hD : hasAvatar s .defender <;>
    rw [hA] at bA <;> rw [hD] at bD <;>
    simp [← bA, ← bD, Player.other]

/-- Witness for the amended C8: the empty fresh state lacks the attacker
Avatar, and the characterization gives the Defender as winner. -/
theorem claim_C8_witness :
    ¬ avatarPresent initGM Player.attacker ∧
    checkWinCondition initGM = some Player.defender :=
  ⟨by rw [← hasAvatar_iff]; decide,
   (claim_C8_win_characterization initGM).2.1 (by rw [← hasAvatar_iff]; decide)⟩

/-- C3: the server accepts and applies a blocker assignment whose primary
blocker is not Taunt-tagged even though a Taunt blocker stands in the zone —
resolve_combat_with_assignments collects the taunt indices but never checks
them.  Here the defender assigns its plain Footman (index 1) as primary
blocker while the Taunt Shieldbearer (index 0) is present; the handler
reports success and the Footman absorbs the hit and dies. -/
theorem claim_C3_taunt_not_enforced :
    hasSubtype (cardOf "Shieldbearer" 1).info "Taunt" = true ∧
    hasSubtype (cardOf "Footman" 1).info "Taunt" = false ∧
    (handleCombatAssignments sessC3 .defender [(0, [1])]).1 = true ∧
    ((handleCombatAssignments sessC3 .defender [(0, [1])]).2.gm.battlefield
        .gate).middleZone.defender = [cardOf "Shieldbearer" 1] ∧
    ((handleCombatAssignments sessC3 .defender [(0, [1])]).2.gm.battlefield
        .gate).middleZone.attacker = [] :=
  ⟨by decide, by decide, by decide, by decide, by decide⟩

/-- C5 counterexample: ending the turn with a contested Gate middle zone
leaves the session awaiting that zone's blocker assignment, yet the capture
ledger has already been incremented for the turn — capture accounting ran
inside end_turn before any combat was resolved. -/
theorem claim_C5_counterexample :
    sessC5.gm.capturePower .gate = ⟨0, 0⟩ ∧
    (handleEndTurnAction sessC5 .defender).2.awaiting = some (.gate, .middleZone) ∧
    (handleEndTurnAction sessC5 .defender).2.gm.capturePower .gate = ⟨2, 2⟩ :=
  ⟨by decide, by decide, by decide⟩

theorem resolveCombat_fields (s : GMState) (l : Location) (a : List (Nat × List Nat))
    (ak : Player) (z : Zone) :
    (resolveCombatWithAssignments s l a ak z).2.capturePower = s.capturePower ∧
    (resolveCombatWithAssignments s l a ak z).2.locationControl = s.locationControl := by
  cases hE : ((((s.battlefield l).zone z).side ak).isEmpty
      || (((s.battlefield l).zone z).side ak.other).isEmpty) with
  | true => constructor <;> simp [resolveCombatWithAssignments, hE]
  | false => constructor <;> simp [resolveCombatWithAssignments, hE]

/-- C5 amended: combat resolution through the blocker-assignment handler
never modifies the capture ledger or the location controllers — the turn's
capture accounting is complete before the first assignment arrives. -/
theorem claim_C5_combat_preserves_capture (sess : Session) (p : Player)
    (a : List (Nat × List Nat)) (l : Location) :
    (handleCombatAssignments sess p a).2.gm.capturePower l = sess.gm.capturePower l ∧
    (handleCombatAssignments sess p a).2.gm.locationControl l = sess.gm.locationControl l := by
  cases hawait : sess.awaiting with
  | none => simp [handleCombatAssignments, hawait]
  | some lz =>
    by_cases hb : getBlockerSide sess.gm lz.1 lz.2 ≠ some p
    · simp [handleCombatAssignments, hawait, hb]
    · simp only [not_not] at hb
      cases hp1 : sess.pending.erase lz with
      | cons nx rest =>
        simp only [handleCombatAssignments, hawait, hb, hp1]
        rw [if_neg (show ¬ (some p ≠ some p) by simp)]
        constructor
        · exact congrFun (resolveCombat_fields sess.gm lz.1 a _ lz.2).1 l
        · exact congrFun (resolveCombat_fields sess.gm lz.1 a _ lz.2).2 l
      | nil =>
        simp only [handleCombatAssignments, hawait, hb, hp1]
        rw [if_neg (show ¬ (some p ≠ some p) by simp)]
        cases hw : checkWinCondition (resolveCombatWithAssignments sess.gm lz.1 a
            (if some p = some Player.attacker then Player.defender
             else Player.attacker) lz.2).2 with
        | none =>
          simp only [hw]
          constructor
          · exact congrFun (resolveCombat_fields sess.gm lz.1 a _ lz.2).1 l
          · exact congrFun (resolveCombat_fields sess.gm lz.1 a _ lz.2).2 l
        | some w =>
          simp only [hw]
          constructor
          · exact congrFun (resolveCombat_fields sess.gm lz.1 a _ lz.2).1 l
          · exact congrFun (resolveCombat_fields sess.gm lz.1 a _ lz.2).2 l

-- field-preservation lemmas for C7

theorem setHasDrawn_fields (s : GMState) (p : Player) (b : Bool) :
    (setHasDrawn s p b).locationControl = s.locationControl ∧
    (setHasDrawn s p b).capturePower = s.capturePower := by
  cases p <;> exact ⟨rfl, rfl⟩

theorem drawCardFromDeck_fields (s : GMState) (c : String) (p : Player) :
    (drawCardFromDeck s c p).2.locationControl = s.locationControl ∧
    (drawCardFromDeck s c p).2.capturePower = s.capturePower := by
  cases hcd : canDrawCard s p with
  | false => constructor <;> simp [drawCardFromDeck, hcd]
  | true =>
    cases hct : (s.decks p).contains c with
    | false =>
      have hmem : ¬ c ∈ s.decks p := by simpa using hct
      constructor <;> simp [drawCardFromDeck, hcd, hmem]
    | true =>
      have hmem : c ∈ s.decks p := by simpa using hct
      cases hdb : cardsDB c with
      | none => constructor <;> simp [drawCardFromDeck, drawCardToQueue, hcd, hmem, hdb]
      | some info =>
        constructor
        · simp only [drawCardFromDeck, drawCardToQueue, hcd, hdb]
          simp [hmem]
          exact (setHasDrawn_fields _ _ _).1
        · simp only [drawCardFromDeck, drawCardToQueue, hcd, hdb]
          simp [hmem]
          exact (setHasDrawn_fields _ _ _).2

theorem placeCardOnBattlefield_fields (s : GMState) (l : Location) (c : String)
    (info : CardInfo) (p : Player) (z : Zone) :
    (placeCardOnBattlefield s l c info p z).2.locationControl = s.locationControl ∧
    (placeCardOnBattlefield s l c info p z).2.capturePower = s.capturePower := by
  cases hacc : canPlaceAtLocation s l p with
  | false => constructor <;> simp [placeCardOnBattlefield, hacc]
  | true => constructor <;> simp [placeCardOnBattlefield, processOnPlay, hacc]

theorem moveCard_fields (s : GMState) (fl tl : Location) (i : Nat) (p : Player)
    (fz : Option Zone) (tz : Zone) :
    (moveCard s fl tl i p fz tz).2.locationControl = s.locationControl ∧
    (moveCard s fl tl i p fz tz).2.capturePower = s.capturePower := by
  cases hadj : areAdjacent fl tl with
  | false => constructor <;> simp [moveCard, hadj]
  | true =>
  cases hacc : canPlaceAtLocation s tl p with
  | false => constructor <;> simp [moveCard, hadj, hacc]
  | true =>
  cases fz with
  | some z =>
    by_cases hlen : i < (((s.battlefield fl).zone z).side p).length
    · cases hc : (((s.battlefield fl).zone z).side p)[i]? with
      | none => constructor <;> simp [moveCard, hadj, hacc, hlen, hc]
      | some card =>
        cases hcm : canSpecificCardMove s card with
        | false => constructor <;> simp [moveCard, hadj, hacc, hlen, hc, hcm]
        | true => constructor <;> simp [moveCard, hadj, hacc, hlen, hc, hcm]
    · constructor <;> simp [moveCard, hadj, hacc, hlen]
  | none =>
    cases hloc : locateCard (s.battlefield fl) p i with
    | none => constructor <;> simp [moveCard, hadj, hacc, hloc]
    | some zi =>
      cases hc : (((s.battlefield fl).zone zi.1).side p)[zi.2]? with
      | none => constructor <;> simp [moveCard, hadj, hacc, hloc, hc]
      | some card =>
        cases hcm : canSpecificCardMove s card with
        | false => constructor <;> simp [moveCard, hadj, hacc, hloc, hc, hcm]
        | true => constructor <;> simp [moveCard, hadj, hacc, hloc, hc, hcm]

theorem arrivalsFold_fields (es : List QueueEntry) (st : GMState) :
    ((es.foldl (fun st2 e => addCardToHand st2 e.cardId e.info e.player) st).locationControl
      = st.locationControl) ∧
    ((es.foldl (fun st2 e => addCardToHand st2 e.cardId e.info e.player) st).capturePower
      = st.capturePower) := by
  induction es generalizing st with
  | nil => exact ⟨rfl, rfl⟩
  | cons e tl ih =>
    rw [List.foldl_cons]
    exact ⟨(ih _).1, (ih _).2⟩

theorem processTurn_fields (s : GMState) :
    (processTurn s).locationControl = s.locationControl ∧
    (processTurn s).capturePower = s.capturePower := by
  unfold processTurn
  exact ⟨(arrivalsFold_fields _ _).1, (arrivalsFold_fields _ _).2⟩

theorem processEndOfTurnAt_control (s : GMState) (l : Location) :
    (processEndOfTurnAt s l).locationControl = s.locationControl := rfl

theorem processEndOfTurnAt_power (s : GMState) (l : Location) :
    (processEndOfTurnAt s l).capturePower = s.capturePower := rfl

theorem processEndOfTurnAll_fields (s : GMState) :
    (processEndOfTurnAll s).locationControl = s.locationControl ∧
    (processEndOfTurnAll s).capturePower = s.capturePower := by
  constructor
  · simp only [processEndOfTurnAll, LOCATIONS, List.foldl_cons, List.foldl_nil]
    simp only [processEndOfTurnAt_control]
  · simp only [processEndOfTurnAll, LOCATIONS, List.foldl_cons, List.foldl_nil]
    simp only [processEndOfTurnAt_power]

theorem untapCards_fields (s : GMState) (p : Player) :
    (untapCards s p).locationControl = s.locationControl ∧
    (untapCards s p).capturePower = s.capturePower :=
  ⟨rfl, rfl⟩

theorem accumulate_control (s : GMState) :
    (accumulateCapturePower s).locationControl = s.locationControl := by
  show (accumulateStep (accumulateStep (accumulateStep s .gate) .walls) .sewers).locationControl
    = s.locationControl
  rw [accumulateStep_control, accumulateStep_control, accumulateStep_control]

theorem accumulateStep_power_controlled (s : GMState) (m l : Location) (p : Player)
    (h : s.locationControl l = some p) :
    (accumulateStep s m).capturePower l = s.capturePower l := by
  by_cases hlm : l = m
  · subst hlm; exact accumulateStep_power_some s l p h
  · exact accumulateStep_power_ne s m l hlm

theorem accumulate_power_controlled (s : GMState) (l : Location) (p : Player)
    (h : s.locationControl l = some p) :
    (accumulateCapturePower s).capturePower l = s.capturePower l := by
  show (accumulateStep (accumulateStep (accumulateStep s .gate) .walls) .sewers).capturePower l
    = s.capturePower l
  have h1 : (accumulateStep s .gate).locationControl l = some p := by
    rw [accumulateStep_control]; exact h
  have h2 : (accumulateStep (accumulateStep s .gate) .walls).locationControl l = some p := by
    rw [accumulateStep_control]; exact h1
  rw [accumulateStep_power_controlled _ _ l p h2,
    accumulateStep_power_controlled _ _ l p h1,
    accumulateStep_power_controlled _ _ l p h]

theorem captureStep_controlled (acc : GMState × List (Location × Player)) (m l : Location)
    (p : Player) (h : acc.1.locationControl l = some p) :
    (captureStep acc m).1.locationControl l = some p ∧
    (captureStep acc m).1.capturePower l = acc.1.capturePower l := by
  by_cases hlm : l = m
  · subst hlm
    rw [captureStep_skip acc l p h]
    exact ⟨h, rfl⟩
  · exact ⟨by rw [captureStep_control_ne acc m l hlm]; exact h,
      captureStep_power_ne acc m l hlm⟩

theorem checkCaptures_controlled (s : GMState) (l : Location) (p : Player)
    (h : s.locationControl l = some p) :
    (checkCaptures s).1.locationControl l = some p ∧
    (checkCaptures s).1.capturePower l = s.capturePower l := by
  have h1 := captureStep_controlled (s, []) .gate l p h
  have h2 := captureStep_controlled _ .walls l p h1.1
  have h3 := captureStep_controlled _ .sewers l p h2.1
  refine ⟨h3.1, ?_⟩
  show (captureStep (captureStep (captureStep
    (s, ([] : List (Location × Player))) .gate) .walls) .sewers).1.capturePower l
    = s.capturePower l
  rw [h3.2, h2.2, h1.2]

theorem resolvePipeline_controlled (t : GMState) (l : Location) (p : Player)
    (h : t.locationControl l = some p) :
    (checkCaptures (accumulateCapturePower (processEndOfTurnAll
      (processTurn t)))).1.locationControl l = some p ∧
    (checkCaptures (accumulateCapturePower (processEndOfTurnAll
      (processTurn t)))).1.capturePower l = t.capturePower l := by
  have hPT := processTurn_fields t
  have hc2 : (processTurn t).locationControl l = some p := by rw [hPT.1]; exact h
  have hEOT := processEndOfTurnAll_fields (processTurn t)
  have hc3 : (processEndOfTurnAll (processTurn t)).locationControl l = some p := by
    rw [hEOT.1]; exact hc2
  have hc4 : (accumulateCapturePower (processEndOfTurnAll
      (processTurn t))).locationControl l = some p := by
    rw [accumulate_control]; exact hc3
  have hCC := checkCaptures_controlled _ l p hc4
  refine ⟨hCC.1, ?_⟩
  rw [hCC.2, accumulate_power_controlled _ l p hc3, congrFun hEOT.2 l, congrFun hPT.2 l]

theorem endTurn_controlled (s : GMState) (l : Location) (p : Player)
    (h : s.locationControl l = some p) :
    (endTurn s).locationControl l = some p ∧
    (endTurn s).capturePower l = s.capturePower l := by
  obtain ⟨ct, cp, ahp, dhp, ahd, dhd, ahm, dhm, qu, bf, hd, dk, lc, cpw, abd, dbd⟩ := s
  cases cp with
  | attacker => exact ⟨h, rfl⟩
  | defender =>
    cases ahp with
    | false => exact ⟨h, rfl⟩
    | true =>
      have hp := resolvePipeline_controlled
        ⟨ct, .defender, true, true, ahd, dhd, ahm, dhm, qu, bf, hd, dk, lc, cpw, abd, dbd⟩
        l p h
      exact ⟨hp.1, hp.2⟩

theorem applyOp_controlled (op : Op) (s : GMState) (l : Location) (p : Player)
    (h : s.locationControl l = some p) :
    (applyOp s op).locationControl l = some p ∧
    (applyOp s op).capturePower l = s.capturePower l := by
  cases op with
  | drawFromDeck c q =>
    exact ⟨by rw [show (applyOp s (.drawFromDeck c q)).locationControl
        = s.locationControl from (drawCardFromDeck_fields s c q).1]; exact h,
      congrFun (drawCardFromDeck_fields s c q).2 l⟩
  | place l2 c info q z =>
    exact ⟨by rw [show (applyOp s (.place l2 c info q z)).locationControl
        = s.locationControl from (placeCardOnBattlefield_fields s l2 c info q z).1]; exact h,
      congrFun (placeCardOnBattlefield_fields s l2 c info q z).2 l⟩
  | move fl tl i q fz tz =>
    exact ⟨by rw [show (applyOp s (.move fl tl i q fz tz)).locationControl
        = s.locationControl from (moveCard_fields s fl tl i q fz tz).1]; exact h,
      congrFun (moveCard_fields s fl tl i q fz tz).2 l⟩
  | endTurnOp => exact endTurn_controlled s l p h
  | resolveCombat l2 a ak z =>
    exact ⟨by rw [show (applyOp s (.resolveCombat l2 a ak z)).locationControl
        = s.locationControl from (resolveCombat_fields s l2 a ak z).2]; exact h,
      congrFun (resolveCombat_fields s l2 a ak z).1 l⟩
  | processTurnOp =>
    exact ⟨by rw [show (applyOp s .processTurnOp).locationControl
        = s.locationControl from (processTurn_fields s).1]; exact h,
      congrFun (processTurn_fields s).2 l⟩
  | endOfTurnAbilities => exact ⟨h, rfl⟩
  | accumulate =>
    refine ⟨?_, accumulate_power_controlled s l p h⟩
    show (accumulateCapturePower s).locationControl l = some p
    rw [accumulate_control]
    exact h
  | captures => exact checkCaptures_controlled s l p h
  | untap q => exact ⟨h, rfl⟩
  | tapOp l2 i q z => exact ⟨h, rfl⟩
  | addHand c info q => exact ⟨h, rfl⟩
  | removeHand c q => exact ⟨h, rfl⟩

/-- C7: location control is permanent and the capture ledger of a controlled
location is frozen: once a side controls a location, no sequence of engine
operations changes the controller or that location's ledger; and the moment
check_captures assigns a controller, it resets that location's ledger to
zero for both sides. -/
theorem claim_C7_control_permanent :
    (∀ (s : GMState) (l : Location) (p : Player), s.locationControl l = some p →
      ∀ ops : List Op, (applyOps s ops).locationControl l = some p ∧
        (applyOps s ops).capturePower l = s.capturePower l)
    ∧ (∀ (s : GMState) (l : Location) (q : Player), s.locationControl l = none →
        (checkCaptures s).1.locationControl l = some q →
        (checkCaptures s).1.capturePower l = ⟨0, 0⟩) := by
  constructor
  · intro s l p h ops
    induction ops generalizing s with
    | nil => exact ⟨h, rfl⟩
    | cons op tl ih =>
      have h1 := applyOp_controlled op s l p h
      have h2 := ih (applyOp s op) h1.1
      exact ⟨h2.1, by rw [show applyOps s (op :: tl) = applyOps (applyOp s op) tl from rfl,
        h2.2, h1.2]⟩
  · intro s l q h0 hc
    have hcap : l ∈ CAPTURABLE_LOCATIONS := by
      by_contra hnot
      have hgate : l ≠ Location.gate := by intro hh; exact hnot (by rw [hh]; decide)
      have hwalls : l ≠ Location.walls := by intro hh; exact hnot (by rw [hh]; decide)
      have hsewers : l ≠ Location.sewers := by intro hh; exact hnot (by rw [hh]; decide)
      have : (checkCaptures s).1.locationControl l = s.locationControl l := by
        show (captureStep (captureStep (captureStep
          (s, ([] : List (Location × Player))) .gate) .walls) .sewers).1.locationControl l
          = s.locationControl l
        rw [captureStep_control_ne _ _ _ hsewers, captureStep_control_ne _ _ _ hwalls,
          captureStep_control_ne _ _ _ hgate]
      rw [this, h0] at hc
      exact absurd hc (by simp)
    fin_cases hcap
    · -- gate
      have e1 : (checkCaptures s).1.capturePower .gate =
          (captureStep (s, ([] : List (Location × Player))) .gate).1.capturePower .gate := by
        show (captureStep (captureStep (captureStep
          (s, ([] : List (Location × Player))) .gate) .walls) .sewers).1.capturePower .gate = _
        rw [captureStep_power_ne _ _ _ (by decide), captureStep_power_ne _ _ _ (by decide)]
      have e1c : (checkCaptures s).1.locationControl .gate =
          (captureStep (s, ([] : List (Location × Player))) .gate).1.locationControl .gate := by
        show (captureStep (captureStep (captureStep
          (s, ([] : List (Location × Player))) .gate) .walls) .sewers).1.locationControl .gate = _
        rw [captureStep_control_ne _ _ _ (by decide), captureStep_control_ne _ _ _ (by decide)]
      rw [e1c] at hc
      rw [e1]
      rcases captureStep_shape (s, []) .gate with hs | ⟨q2, hq⟩
      · rw [hs] at hc
        rw [h0] at hc
        exact absurd hc (by simp)
      · rw [hq]
        exact applyCapture_power_self _ _ _ _
    · -- walls
      have e1 : (checkCaptures s).1.capturePower .walls =
          (captureStep (captureStep (s, ([] : List (Location × Player))) .gate)
            .walls).1.capturePower .walls := by
        show (captureStep (captureStep (captureStep
          (s, ([] : List (Location × Player))) .gate) .walls) .sewers).1.capturePower .walls = _
        rw [captureStep_power_ne _ _ _ (by decide)]
      have e1c : (checkCaptures s).1.locationControl .walls =
          (captureStep (captureStep (s, ([] : List (Location × Player))) .gate)
            .walls).1.locationControl .walls := by
        show (captureStep (captureStep (captureStep
          (s, ([] : List (Location × Player))) .gate) .walls) .sewers).1.locationControl .walls = _
        rw [captureStep_control_ne _ _ _ (by decide)]
      rw [e1c] at hc
      rw [e1]
      rcases captureStep_shape (captureStep (s, []) .gate) .walls with hs | ⟨q2, hq⟩
      · rw [hs] at hc
        rw [captureStep_control_ne _ _ _ (by decide)] at hc
        rw [h0] at hc
        exact absurd hc (by simp)
      · rw [hq]
        exact applyCapture_power_self _ _ _ _
    · -- sewers
      rcases captureStep_shape (captureStep (captureStep (s, []) .gate) .walls) .sewers
        with hs | ⟨q2, hq⟩
      · have : (checkCaptures s).1.locationControl .sewers = s.locationControl .sewers := by
          show (captureStep (captureStep (captureStep
            (s, ([] : List (Location × Player))) .gate) .walls) .sewers).1.locationControl .sewers
            = s.locationControl .sewers
          rw [hs, captureStep_control_ne _ _ _ (by decide),
            captureStep_control_ne _ _ _ (by decide)]
        rw [this, h0] at hc
        exact absurd hc (by simp)
      · show (captureStep (captureStep (captureStep
          (s, ([] : List (Location × Player))) .gate) .walls) .sewers).1.capturePower .sewers
          = ⟨0, 0⟩
        rw [hq]
        exact applyCapture_power_self _ _ _ _

/-- Witness for C7: the Camp controller survives an end_turn operation with
its ledger intact, and the capture of the Gate in the concrete pre-capture
state resets the Gate ledger. -/
theorem claim_C7_witness :
    (applyOps initGM [Op.endTurnOp]).locationControl .camp = some Player.attacker ∧
    (applyOps initGM [Op.endTurnOp]).capturePower .camp = initGM.capturePower .camp ∧
    (checkCaptures gmCap).1.capturePower .gate = ⟨0, 0⟩ :=
  ⟨(claim_C7_control_permanent.1 initGM .camp .attacker (by decide) [Op.endTurnOp]).1,
   (claim_C7_control_permanent.1 initGM .camp .attacker (by decide) [Op.endTurnOp]).2,
   claim_C7_control_permanent.2 gmCap .gate .attacker (by decide) (by decide)⟩

/-- C4: if the viewer has no unit of its own at a location (hence also no
Scout there), the projected state hides the enemy cards of every zone of
that location (only the opaque count is present), and the combat block —
whose awaited zone always holds cards of both sides — never references that
location. -/
theorem claim_C4_fog_of_war (sess : Session) (viewer : Player) (l : Location)
    (hinv : ∀ lz : Location × Zone, sess.awaiting = some lz →
      ((sess.gm.battlefield lz.1).zone lz.2).attacker ≠ [] ∧
      ((sess.gm.battlefield lz.1).zone lz.2).defender ≠ [])
    (hempty : ∀ z : Zone, ((sess.gm.battlefield l).zone z).side viewer = []) :
    (∀ z : Zone,
      (((getGameStateForPlayer sess viewer).battlefield l).zones z).enemyCards = none) ∧
    (∀ cv : CombatView,
      (getGameStateForPlayer sess viewer).combatState = some cv → cv.location ≠ l) := by
  constructor
  · intro z
    show ((locView sess.gm viewer l).zones z).enemyCards = none
    simp [locView, ZONES, hempty, scoutInList]
  · intro cv hcv
    have hcv2 : combatViewFor sess viewer = some cv := hcv
    cases hawait : sess.awaiting with
    | none => simp [combatViewFor, hawait] at hcv2
    | some lz =>
      simp only [combatViewFor, hawait, Option.some.injEq] at hcv2
      intro heq
      rw [← hcv2] at heq
      replace heq : lz.1 = l := heq
      have hnz := hinv lz hawait
      rw [heq] at hnz
      cases viewer with
      | attacker => exact hnz.1 (hempty lz.2)
      | defender => exact hnz.2 (hempty lz.2)

/-- Witness for C4: in the concrete session the attacker has nothing at the
Keep, so the defender Footman there is hidden and only its count is sent. -/
theorem claim_C4_witness :
    (((getGameStateForPlayer sessC4 .attacker).battlefield .keep).zones
        Zone.defenderZone).enemyCards = none ∧
    (((getGameStateForPlayer sessC4 .attacker).battlefield .keep).zones
        Zone.defenderZone).enemyCount = 1 :=
  ⟨(claim_C4_fog_of_war sessC4 .attacker .keep
      (fun lz h => nomatch h)
      (fun z => by cases z <;> rfl)).1 Zone.defenderZone,
   by decide⟩

end CardGame
